import Mathlib

/-! # IkiGUI Gain plugin: the processing core of `src/src/gain_plugin.cpp`

A shallow embedding of the `GainPlugin` class and of the records of
`include/clap/clap.h` and `include/ikigui/ikigui.hpp` it works on.

Modelling conventions.

* The C `double` (and the `float` of the sample buffers) is an ordered field `α`;
  the two `<cmath>` functions the plugin calls, `std::exp` and `std::pow`, are the
  fields of a `Libm α` record passed to every function that needs them.  The
  definitions are therefore executable on `ℚ` with any rational `Libm`, and the
  theorems read them on `ℝ` with `Real.exp` and `Real.rpow` (exact real
  arithmetic: no rounding, `static_cast<float>` is the identity).
* The field has no infinity and no NaN.  The one division whose divisor can be zero,
  `-1.0 / (0.01 * sample_rate_)` in `process`, is written out with its C++ value: the
  quotient is `-inf` and its exponential `0` (`smoothing_coefficient`).  The one place
  where a double comes from text, `std::strtod` in `params_text_to_value`, works on
  `Double α`, a number, an infinity or NaN, with the comparisons of IEEE 754.
* A pointer that the code tests against null is an `Option`.
* `uint32_t` counters are `Nat`; the loops only count upwards to a bound that is
  itself a `uint32_t`, so no counter wraps.
* The memory behind `float **data32` is a function `channel → frame → sample`;
  input and output buffers are distinct memory (no aliasing).
* `std::atomic<double>` with relaxed loads and stores on a single thread is a
  plain field.
-/

namespace GainPluginModel

/-! ## `clap.h` -/

/-- The C math library functions used by the plugin: `std::exp` and `std::pow`. -/
structure Libm (α : Type) where
  exp : α → α
  pow : α → α → α

/-- Value of `#define CLAP_EVENT_PARAM_VALUE 5`. -/
def CLAP_EVENT_PARAM_VALUE : Nat := 5

/-- Value of `#define CLAP_PROCESS_CONTINUE 0`. -/
def CLAP_PROCESS_CONTINUE : Int := 0

/-- Value of `#define CLAP_PARAM_IS_AUTOMATABLE (1u << 0)`. -/
def CLAP_PARAM_IS_AUTOMATABLE : Nat := 1

/-- Value of `constexpr uint32_t kGainParamId = 0`. -/
def kGainParamId : Nat := 0

/-- Record `clap_event_header_t`. -/
structure clap_event_header where
  size : Nat
  time : Nat
  space_id : Nat
  type : Nat
  flags : Nat

/-- Record `clap_event_param_value_t`: what `apply_param_events` reads through the
`reinterpret_cast` of an event header pointer. -/
structure clap_event_param_value (α : Type) where
  header : clap_event_header
  param_id : Int
  cookie : Int
  note_id : Int
  port_index : Int
  channel : Int
  key : Int
  reserved : Int
  value : α

/-- The value of `sizeof(clap_event_param_value_t)`: a 12-byte header, three `int32_t`,
four `int16_t` (offset 32 reached) and one `double`. -/
def sizeof_clap_event_param_value : Nat := 40

/-- Record `clap_input_events_t`: the two callbacks.  A null function pointer is `none`;
`size` holds the number the callback returns, `get` the event pointer returned for an
index (`none` for a null event). -/
structure clap_input_events (α : Type) where
  size : Option Nat
  get : Option (Nat → Option (clap_event_param_value α))

/-- Record `clap_audio_buffer_t`. -/
structure clap_audio_buffer (α : Type) where
  data32 : Option (Nat → Nat → α)
  data64 : Option (Nat → Nat → α)
  channel_count : Nat
  latency : Nat
  constant_mask : Nat

/-- Record `clap_process_t` together with the buffers its pointers reach
(`transport` and `out_events` are never read by the plugin and are left out). -/
structure clap_process (α : Type) where
  steady_time : Int
  frames_count : Nat
  audio_inputs : Nat → clap_audio_buffer α
  audio_outputs : Nat → clap_audio_buffer α
  audio_inputs_count : Nat
  audio_outputs_count : Nat
  in_events : Option (clap_input_events α)

/-! ## `ikigui.hpp` -/

/-- Class `ikigui::GainViewModel`. -/
structure GainViewModel (α : Type) where
  gain_db_ : α

/-- Method `GainViewModel::set_gain_db`. -/
def GainViewModel.set_gain_db {α : Type} (_self : GainViewModel α) (db : α) : GainViewModel α :=
  { gain_db_ := db }

/-- Method `GainViewModel::gain_db`. -/
def GainViewModel.gain_db {α : Type} (self : GainViewModel α) : α := self.gain_db_

/-- Class `ikigui::GuiContext`. -/
structure GuiContext where
  created_ : Bool
  deriving DecidableEq

/-- Method `GuiContext::create`: the result and the context afterwards. -/
def GuiContext.create (_self : GuiContext) : Bool × GuiContext := (true, { created_ := true })

/-- Method `GuiContext::destroy`. -/
def GuiContext.destroy (_self : GuiContext) : GuiContext := { created_ := false }

/-- Method `GuiContext::show`. -/
def GuiContext.show (self : GuiContext) : Bool := self.created_

/-- Method `GuiContext::hide`. -/
def GuiContext.hide (_self : GuiContext) : Bool := true

/-- Method `GuiContext::is_created`. -/
def GuiContext.is_created (self : GuiContext) : Bool := self.created_

/-! ## `gain_plugin.cpp` -/

/-- The data members of `GainPlugin` that carry state (`host_` only as null or not;
the function tables are constants). -/
structure GainPlugin (α : Type) where
  host_ : Bool
  gain_db_ : α
  sample_rate_ : α
  current_gain_ : α
  view_model_ : GainViewModel α
  gui_context_ : GuiContext

section Code

variable {α : Type} [LinearOrderedField α]

/-- The constructor `GainPlugin(host)` with the default member initialisers
`gain_db_{0.0}`, `sample_rate_{48000.0}`, `current_gain_{1.0}`, a view model at `0.0`
and a GUI context that is not created. -/
def GainPlugin.new (host : Bool) : GainPlugin α :=
  { host_ := host, gain_db_ := 0, sample_rate_ := 48000, current_gain_ := 1,
    view_model_ := { gain_db_ := 0 }, gui_context_ := { created_ := false } }

/-- Function `std::clamp(v, lo, hi)`: `(v < lo) ? lo : (hi < v) ? hi : v`. -/
def clamp (v lo hi : α) : α :=
  if v < lo then lo else if hi < v then hi else v

/-- Method `GainPlugin::db_to_gain`: `std::pow(10.0, db / 20.0)`. -/
def db_to_gain (m : Libm α) (db : α) : α := m.pow 10 (db / 20)

/-- Method `GainPlugin::init`. -/
def init (self : GainPlugin α) : Bool := self.host_

/-- Method `GainPlugin::reset`. -/
def reset (m : Libm α) (self : GainPlugin α) : GainPlugin α :=
  let db := self.gain_db_
  { self with current_gain_ := db_to_gain m db }

/-- Method `GainPlugin::activate`: store the rate, reset, report `sample_rate > 1.0`. -/
def activate (m : Libm α) (self : GainPlugin α) (sample_rate : α) : Bool × GainPlugin α :=
  let self := { self with sample_rate_ := sample_rate }
  let self := reset m self
  (decide (sample_rate > 1), self)

/-- The vtable entry `clap_activate`, which drops the two frame counts. -/
def clap_activate (m : Libm α) (self : GainPlugin α) (sample_rate : α)
    (_min_frames_count _max_frames_count : Nat) : Bool × GainPlugin α :=
  activate m self sample_rate

/-- Method `GainPlugin::deactivate`. -/
def deactivate (self : GainPlugin α) : GainPlugin α := self

/-- Method `GainPlugin::start_processing`. -/
def start_processing (self : GainPlugin α) : Bool × GainPlugin α := (true, self)

/-- Method `GainPlugin::stop_processing`. -/
def stop_processing (self : GainPlugin α) : GainPlugin α := self

/-- One iteration of the loop of `apply_param_events`, on the pointer `events->get`
returned. -/
def apply_param_event (self : GainPlugin α) (event : Option (clap_event_param_value α)) :
    GainPlugin α :=
  match event with
  | none => self
  | some param =>
    if param.header.type ≠ CLAP_EVENT_PARAM_VALUE ∨
        param.header.size < sizeof_clap_event_param_value then self
    else if param.param_id = (kGainParamId : Int) then
      let clamped := clamp param.value (-60) 12
      { self with gain_db_ := clamped, view_model_ := self.view_model_.set_gain_db clamped }
    else self

/-- Method `GainPlugin::apply_param_events`. -/
def apply_param_events (self : GainPlugin α) (events : Option (clap_input_events α)) :
    GainPlugin α :=
  match events with
  | none => self
  | some ev =>
    match ev.size, ev.get with
    | some n, some get => (List.range n).foldl (fun s i => apply_param_event s (get i)) self
    | _, _ => self

/-- The inner loop of `process` for frame `i`:
`for ch < channels: out.data32[ch][i] = in.data32[ch][i] * g`. -/
def write_frame (inp : Nat → Nat → α) (g : α) (i channels : Nat) (out : Nat → Nat → α) :
    Nat → Nat → α :=
  (List.range channels).foldl
    (fun o ch => fun c j => if c = ch ∧ j = i then inp ch i * g else o c j) out

/-- The outer loop of `process` over the frames `0 .. frames_count - 1`, on the pair
(`current_gain_`, memory of `out.data32`). -/
def process_frames (target_gain smoothing : α) (inp : Nat → Nat → α) (channels frames_count : Nat)
    (current_gain : α) (out : Nat → Nat → α) : α × (Nat → Nat → α) :=
  (List.range frames_count).foldl
    (fun st i =>
      let current_gain := target_gain + smoothing * (st.1 - target_gain)
      let g := current_gain
      (current_gain, write_frame inp g i channels st.2))
    (current_gain, out)

/-- The initialiser of the local `smoothing` of `process`,
`std::exp(-1.0 / (0.01 * sample_rate_))`.  With a zero divisor the C++ quotient is
`-1.0 / 0.0 = -inf` and `std::exp(-inf)` is `0`; the field has no infinity, so that case
is written out.  (A rate of `-0.0`, like NaN, is outside the model.) -/
def smoothing_coefficient (m : Libm α) (sample_rate : α) : α :=
  if 0.01 * sample_rate = 0 then 0 else m.exp (-1 / (0.01 * sample_rate))

/-- What a call of `process` leaves behind: the returned status, the plugin, and the
process record with the memory of its output buffers. -/
structure ProcessResult (α : Type) where
  status : Int
  plugin : GainPlugin α
  process : Option (clap_process α)

/-- Method `GainPlugin::process`. -/
def process (m : Libm α) (self : GainPlugin α) (process : Option (clap_process α)) :
    ProcessResult α :=
  match process with
  | none => ⟨CLAP_PROCESS_CONTINUE, self, none⟩
  | some p =>
    if p.audio_inputs_count = 0 ∨ p.audio_outputs_count = 0 then
      ⟨CLAP_PROCESS_CONTINUE, self, some p⟩
    else
      let self := apply_param_events self p.in_events
      let inb := p.audio_inputs 0
      let outb := p.audio_outputs 0
      match inb.data32, outb.data32 with
      | some ind, some outd =>
        let channels := min inb.channel_count outb.channel_count
        if channels = 0 then ⟨CLAP_PROCESS_CONTINUE, self, some p⟩
        else
          let target_gain := db_to_gain m self.gain_db_
          let smoothing := smoothing_coefficient m self.sample_rate_
          let r := process_frames target_gain smoothing ind channels p.frames_count
            self.current_gain_ outd
          ⟨CLAP_PROCESS_CONTINUE, { self with current_gain_ := r.1 },
            some { p with audio_outputs :=
              fun port => if port = 0 then { outb with data32 := some r.2 }
                else p.audio_outputs port }⟩
      | _, _ => ⟨CLAP_PROCESS_CONTINUE, self, some p⟩

/-- The entry `params_get_value` of the parameter table: `none` when it returns false,
the value written to `*value` otherwise (`value_ptr` tells whether the pointer is
non-null). -/
def params_get_value (self : GainPlugin α) (param_id : Nat) (value_ptr : Bool) : Option α :=
  if !value_ptr ∨ param_id ≠ kGainParamId then none else some self.gain_db_

/-- The entry `params_flush` of the parameter table. -/
def params_flush (self : GainPlugin α) (inp : Option (clap_input_events α)) : GainPlugin α :=
  apply_param_events self inp

/-- Value of `#define CLAP_EXT_AUDIO_PORTS "clap.audio-ports"`. -/
def CLAP_EXT_AUDIO_PORTS : String := "clap.audio-ports"

/-- Value of `#define CLAP_EXT_PARAMS "clap.params"`. -/
def CLAP_EXT_PARAMS : String := "clap.params"

/-- Value of `#define CLAP_EXT_GUI "clap.gui"`. -/
def CLAP_EXT_GUI : String := "clap.gui"

/-- The function tables an instance owns and `get_extension` can point to:
the members `audio_ports_`, `params_` and `gui_`. -/
inductive ExtensionTable where
  | audio_ports_
  | params_
  | gui_
  deriving DecidableEq

/-- Method `GainPlugin::get_extension`.  The identifier is a C string or null;
`std::strcmp(a, b) == 0` is equality of the two strings. -/
def get_extension (_self : GainPlugin α) (id : Option String) : Option ExtensionTable :=
  match id with
  | none => none
  | some id =>
    if id = CLAP_EXT_AUDIO_PORTS then some ExtensionTable.audio_ports_
    else if id = CLAP_EXT_PARAMS then some ExtensionTable.params_
    else if id = CLAP_EXT_GUI then some ExtensionTable.gui_
    else none

/-- A C `double` as `std::strtod` may return it: a number, an infinity or NaN. -/
inductive Double (α : Type) where
  | finite (x : α)
  | pos_inf
  | neg_inf
  | nan

/-- The comparison `a < b` of two doubles: false as soon as one of them is NaN. -/
def Double.lt : Double α → Double α → Bool
  | .finite x, .finite y => decide (x < y)
  | .finite _, .pos_inf => true
  | .neg_inf, .finite _ => true
  | .neg_inf, .pos_inf => true
  | _, _ => false

/-- Function `std::clamp(v, lo, hi)` on doubles: `(v < lo) ? lo : (hi < v) ? hi : v`. -/
def Double.clamp (v lo hi : Double α) : Double α :=
  if Double.lt v lo then lo else if Double.lt hi v then hi else v

/-- The entry `params_text_to_value` of the parameter table, with the C library function
`std::strtod` as a parameter: the returned flag, the double written to `*value` (`none`
when nothing is written), and the instance (the entry ignores its plugin pointer).
`value_ptr` tells whether the output pointer is non-null. -/
def params_text_to_value (strtod : String → Double α) (self : GainPlugin α) (param_id : Nat)
    (display : Option String) (value_ptr : Bool) : Bool × Option (Double α) × GainPlugin α :=
  match display with
  | none => (false, none, self)
  | some text =>
    if !value_ptr ∨ param_id ≠ kGainParamId then (false, none, self)
    else (true, some (Double.clamp (strtod text) (Double.finite (-60)) (Double.finite 12)), self)

/-- The entry `gui_is_api_supported` of the GUI table:
`is_floating && api && std::strcmp(api, "x11") == 0`. -/
def gui_is_api_supported (api : Option String) (is_floating : Bool) : Bool :=
  is_floating && (match api with
    | none => false
    | some a => decide (a = "x11"))

/-- The entry `gui_create` of the GUI table: the returned flag and the instance. -/
def gui_create (self : GainPlugin α) (api : Option String) (is_floating : Bool) :
    Bool × GainPlugin α :=
  if !gui_is_api_supported api is_floating then (false, self)
  else (self.gui_context_.create.1, { self with gui_context_ := self.gui_context_.create.2 })

/-- The entry `gui_destroy` of the GUI table. -/
def gui_destroy (self : GainPlugin α) : GainPlugin α :=
  { self with gui_context_ := self.gui_context_.destroy }

/-- The sample `audio_outputs[port].data32[ch][i]` of a process record (`none` when the
record or the buffer pointer is null). -/
def sample_of (process : Option (clap_process α)) (port ch i : Nat) : Option α :=
  match process with
  | none => none
  | some p => (p.audio_outputs port).data32.map (fun d => d ch i)

/-- The calls a host makes on an instance: the lifecycle entries of the plugin vtable,
`process`, and `flush` of the parameter table. -/
inductive Call (α : Type) where
  | init
  | activate (sample_rate : α) (min_frames_count max_frames_count : Nat)
  | deactivate
  | start_processing
  | stop_processing
  | reset
  | process (p : Option (clap_process α))
  | params_flush (inp : Option (clap_input_events α))

/-- The instance after one call. -/
def Call.apply (m : Libm α) (self : GainPlugin α) : Call α → GainPlugin α
  | .init => self
  | .activate sr mn mx => (GainPluginModel.clap_activate m self sr mn mx).2
  | .deactivate => GainPluginModel.deactivate self
  | .start_processing => (GainPluginModel.start_processing self).2
  | .stop_processing => GainPluginModel.stop_processing self
  | .reset => GainPluginModel.reset m self
  | .process p => (GainPluginModel.process m self p).plugin
  | .params_flush inp => GainPluginModel.params_flush self inp

/-- The instance after a sequence of calls, first call first. -/
def run (m : Libm α) (self : GainPlugin α) (calls : List (Call α)) : GainPlugin α :=
  calls.foldl (Call.apply m) self

/-- The instance after processing a sequence of blocks, first block first. -/
def process_blocks (m : Libm α) (self : GainPlugin α) (blocks : List (clap_process α)) :
    GainPlugin α :=
  blocks.foldl (fun s p => (process m s (some p)).plugin) self

end Code

/-! ## Reading of the specification -/

section Spec

variable {α : Type} [LinearOrderedField α]

/-- The recurrence of the smoothing engine as the specification writes it:
`a 0 = g0` and `a (j+1) = target + k * (a j - target)`. -/
def applied_gain_spec (target k g0 : α) : Nat → α
  | 0 => g0
  | j + 1 => target + k * (applied_gain_spec target k g0 j - target)

/-- The events a list hands to the plugin, in arrival order: `get 0, ..., get (size-1)`,
and no event at all when the list or one of its callbacks is null. -/
def delivered (events : Option (clap_input_events α)) : List (Option (clap_event_param_value α)) :=
  match events with
  | none => []
  | some ev =>
    match ev.size, ev.get with
    | some n, some get => (List.range n).map get
    | _, _ => []

/-- A parameter-value event for the gain parameter: a non-null event of type
`CLAP_EVENT_PARAM_VALUE`, whose declared size holds a whole parameter-value record,
with parameter id 0. -/
def is_gain_event (e : Option (clap_event_param_value α)) : Prop :=
  ∃ ev, e = some ev ∧ ev.header.type = 5 ∧ 40 ≤ ev.header.size ∧ ev.param_id = 0

/-- The block passes every guard of `process`: at least one input and one output port,
non-null 32-bit buffers on port 0, and at least one active channel. -/
def valid_block (p : clap_process α) : Prop :=
  p.audio_inputs_count ≠ 0 ∧ p.audio_outputs_count ≠ 0 ∧
  (p.audio_inputs 0).data32 ≠ none ∧ (p.audio_outputs 0).data32 ≠ none ∧
  1 ≤ min (p.audio_inputs 0).channel_count (p.audio_outputs 0).channel_count

/-- The smoothed gain after the first `j` iterations of the frame loop of a `process`
call on block `p`, observed as the smoothed gain that the call leaves when the block
holds `j` frames only. -/
def gain_after (m : Libm α) (s : GainPlugin α) (p : clap_process α) (j : Nat) : α :=
  (process m s (some { p with frames_count := j })).plugin.current_gain_

/-- The block is degenerate: zero input ports, zero output ports, a null 32-bit buffer
on port 0 of either side, or zero active channels. -/
def degenerate_block (p : clap_process α) : Prop :=
  p.audio_inputs_count = 0 ∨ p.audio_outputs_count = 0 ∨
  (p.audio_inputs 0).data32 = none ∨ (p.audio_outputs 0).data32 = none ∨
  min (p.audio_inputs 0).channel_count (p.audio_outputs 0).channel_count = 0

/-- The activation state of the lifecycle state machine of the specification
(section 4.1) after a sequence of calls: entered by an `activate` that returns true,
left by `deactivate` and by an `activate` that returns false. -/
def lifecycle_activated (calls : List (Call α)) : Bool :=
  calls.foldl
    (fun st c => match c with
      | .activate sr _ _ => decide (sr > 1)
      | .deactivate => false
      | _ => st)
    false

/-- Whether an event is a gain event is decided by three comparisons. -/
instance is_gain_event_decidable (e : Option (clap_event_param_value α)) :
    Decidable (is_gain_event e) :=
  match e with
  | none => isFalse (fun h => by obtain ⟨ev, he, _⟩ := h; cases he)
  | some ev =>
    decidable_of_iff (ev.header.type = 5 ∧ 40 ≤ ev.header.size ∧ ev.param_id = 0)
      ⟨fun h => ⟨ev, rfl, h⟩, fun h => by obtain ⟨ev2, he, h2⟩ := h; cases he; exact h2⟩

/-- The block a host passes to continue `q` after its first `n` frames: `k` frames, the
event list `events`, and every buffer of `q` advanced by `n` frames. -/
def tail_block (q : clap_process α) (n k : Nat) (events : Option (clap_input_events α)) :
    clap_process α :=
  { q with
    frames_count := k
    in_events := events
    audio_inputs := fun port =>
      { (q.audio_inputs port) with
        data32 := (q.audio_inputs port).data32.map (fun d ch i => d ch (n + i)) }
    audio_outputs := fun port =>
      { (q.audio_outputs port) with
        data32 := (q.audio_outputs port).data32.map (fun d ch i => d ch (n + i)) } }

/-- Two `process` calls in a row on the memory of block `p`: first `n` frames with the
events of `p`, then `k` frames with the event list `events` on the buffers the first call
left, advanced by `n` frames.  Both results are returned. -/
def process_in_two (m : Libm α) (s : GainPlugin α) (p : clap_process α) (n k : Nat)
    (events : Option (clap_input_events α)) : ProcessResult α × ProcessResult α :=
  let r1 := process m s (some { p with frames_count := n })
  match r1.process with
  | none => (r1, r1)
  | some q => (r1, process m r1.plugin (some (tail_block q n k events)))

end Spec

/-! ## Concrete inputs -/

section Demo

variable (α : Type) [LinearOrderedField α]

/-- A stereo buffer holding the sample `v` everywhere. -/
def demo_buffer (v : α) : clap_audio_buffer α :=
  { data32 := some (fun _ _ => v), data64 := none, channel_count := 2, latency := 0,
    constant_mask := 0 }

/-- A parameter-value event for parameter `param_id` carrying `v`. -/
def demo_event (param_id : Int) (v : α) : clap_event_param_value α :=
  { header := { size := 40, time := 0, space_id := 0, type := 5, flags := 0 },
    param_id := param_id, cookie := 0, note_id := 0, port_index := 0, channel := 0, key := 0,
    reserved := 0, value := v }

/-- An event list over a Lean list. -/
def demo_events (l : List (Option (clap_event_param_value α))) : clap_input_events α :=
  { size := some l.length, get := some (fun i => (l.get? i).join) }

/-- A block of `frames` frames with one stereo input port of constant `1`, one stereo
output port of constant `0`, and the events `l`. -/
def demo_block (frames : Nat) (l : List (Option (clap_event_param_value α))) : clap_process α :=
  { steady_time := 0, frames_count := frames,
    audio_inputs := fun _ => demo_buffer α 1, audio_outputs := fun _ => demo_buffer α 0,
    audio_inputs_count := 1, audio_outputs_count := 1, in_events := some (demo_events α l) }

/-- The block `demo_block` with a null 32-bit buffer on input port 0. -/
def demo_null_block (frames : Nat) (l : List (Option (clap_event_param_value α))) :
    clap_process α :=
  { demo_block α frames l with
    audio_inputs := fun _ => { demo_buffer α 1 with data32 := none } }

end Demo

/-! ## Lemmas on the code -/

section Lemmas

variable {α : Type} [LinearOrderedField α]

theorem clamp_of_mem (v : α) (h1 : -60 ≤ v) (h2 : v ≤ 12) : clamp v (-60) 12 = v := by
  unfold clamp
  rw [if_neg (not_lt.mpr h1), if_neg (not_lt.mpr h2)]

theorem clamp_of_lt (v : α) (h : v < -60) : clamp v (-60) 12 = -60 := by
  unfold clamp
  rw [if_pos h]

theorem clamp_of_gt (v : α) (h : 12 < v) : clamp v (-60) 12 = 12 := by
  unfold clamp
  have h1 : ¬ v < -60 := by
    have : (-60 : α) < 12 := by norm_num
    exact not_lt.mpr (le_of_lt (lt_trans this h))
  rw [if_neg h1, if_pos h]

theorem clamp_range (v : α) : -60 ≤ clamp v (-60) 12 ∧ clamp v (-60) 12 ≤ 12 := by
  unfold clamp
  split_ifs with h1 h2
  · constructor <;> norm_num
  · constructor <;> norm_num
  · exact ⟨not_lt.mp h1, not_lt.mp h2⟩

theorem write_frame_apply (inp : Nat → Nat → α) (g : α) (i channels : Nat)
    (out : Nat → Nat → α) (c j : Nat) :
    write_frame inp g i channels out c j
      = if c < channels ∧ j = i then inp c i * g else out c j := by
  unfold write_frame
  induction channels with
  | zero => simp
  | succ n ih =>
    rw [List.range_succ, List.foldl_append]
    simp only [List.foldl_cons, List.foldl_nil]
    rw [ih]
    by_cases hc : c = n
    · subst hc
      by_cases hj : j = i
      · simp [hj]
      · simp [hj]
    · by_cases hlt : c < n
      · have : c < n + 1 := Nat.lt_succ_of_lt hlt
        simp [hc, hlt, this]
      · have : ¬ c < n + 1 := by omega
        simp [hc, hlt, this]

theorem process_frames_succ (t k : α) (inp : Nat → Nat → α) (channels n : Nat) (g : α)
    (out : Nat → Nat → α) :
    process_frames t k inp channels (n + 1) g out
      = (t + k * ((process_frames t k inp channels n g out).1 - t),
         write_frame inp (t + k * ((process_frames t k inp channels n g out).1 - t)) n channels
           (process_frames t k inp channels n g out).2) := by
  unfold process_frames
  rw [List.range_succ, List.foldl_append]
  rfl

theorem process_frames_gain (t k : α) (inp : Nat → Nat → α) (channels n : Nat) (g : α)
    (out : Nat → Nat → α) :
    (process_frames t k inp channels n g out).1 = applied_gain_spec t k g n := by
  induction n with
  | zero => rfl
  | succ n ih => rw [process_frames_succ, applied_gain_spec, ih]

theorem process_frames_out (t k : α) (inp : Nat → Nat → α) (channels n : Nat) (g : α)
    (out : Nat → Nat → α) (c j : Nat) :
    (process_frames t k inp channels n g out).2 c j
      = if c < channels ∧ j < n then inp c j * applied_gain_spec t k g (j + 1) else out c j := by
  induction n with
  | zero => simp [process_frames]
  | succ n ih =>
    rw [process_frames_succ]
    simp only
    rw [write_frame_apply, ih, process_frames_gain]
    by_cases hc : c < channels
    · by_cases hj : j = n
      · subst hj
        simp [hc, applied_gain_spec]
      · by_cases hlt : j < n
        · have : j < n + 1 := Nat.lt_succ_of_lt hlt
          simp [hc, hj, hlt, this]
        · have : ¬ j < n + 1 := by omega
          simp [hc, hj, hlt, this]
    · simp [hc]

theorem applied_gain_spec_closed (t k g : α) (n : Nat) :
    applied_gain_spec t k g n = t + k ^ n * (g - t) := by
  induction n with
  | zero => simp [applied_gain_spec]
  | succ n ih => rw [applied_gain_spec, ih]; ring

theorem apply_param_events_eq_foldl (s : GainPlugin α) (events : Option (clap_input_events α)) :
    apply_param_events s events = (delivered events).foldl apply_param_event s := by
  unfold apply_param_events delivered
  cases events with
  | none => rfl
  | some ev =>
    obtain ⟨sz, get⟩ := ev
    cases sz with
    | none => rfl
    | some n =>
      cases get with
      | none => rfl
      | some get => simp [List.foldl_map]

theorem apply_param_event_of_not_gain (s : GainPlugin α) (e : Option (clap_event_param_value α))
    (h : ¬ is_gain_event e) : apply_param_event s e = s := by
  unfold apply_param_event
  cases e with
  | none => rfl
  | some ev =>
    simp only
    split_ifs with h1 h2
    · rfl
    · exfalso
      apply h
      refine ⟨ev, rfl, ?_, ?_, ?_⟩
      · by_contra hne
        exact h1 (Or.inl hne)
      · by_contra hne
        exact h1 (Or.inr (by
          have : ev.header.size < 40 := by omega
          exact this))
      · simpa [kGainParamId] using h2
    · rfl

theorem apply_param_event_of_gain (s : GainPlugin α) (ev : clap_event_param_value α)
    (h : is_gain_event (some ev)) :
    apply_param_event s (some ev)
      = { s with gain_db_ := clamp ev.value (-60) 12,
                 view_model_ := s.view_model_.set_gain_db (clamp ev.value (-60) 12) } := by
  obtain ⟨ev2, he, ht, hsz, hid⟩ := h
  cases he
  unfold apply_param_event
  have h1 : ¬ (ev.header.type ≠ CLAP_EVENT_PARAM_VALUE ∨
      ev.header.size < sizeof_clap_event_param_value) := by
    simp only [CLAP_EVENT_PARAM_VALUE, sizeof_clap_event_param_value]
    omega
  have h2 : ev.param_id = (kGainParamId : Int) := by simpa [kGainParamId] using hid
  simp only
  rw [if_neg h1, if_pos h2]

theorem apply_param_event_frame (s : GainPlugin α) (e : Option (clap_event_param_value α)) :
    (apply_param_event s e).current_gain_ = s.current_gain_ ∧
    (apply_param_event s e).sample_rate_ = s.sample_rate_ ∧
    (apply_param_event s e).host_ = s.host_ ∧
    (apply_param_event s e).gui_context_ = s.gui_context_ := by
  unfold apply_param_event
  cases e with
  | none => simp
  | some ev =>
    simp only
    split_ifs <;> simp

theorem foldl_apply_param_event_frame (l : List (Option (clap_event_param_value α)))
    (s : GainPlugin α) :
    (l.foldl apply_param_event s).current_gain_ = s.current_gain_ ∧
    (l.foldl apply_param_event s).sample_rate_ = s.sample_rate_ ∧
    (l.foldl apply_param_event s).host_ = s.host_ ∧
    (l.foldl apply_param_event s).gui_context_ = s.gui_context_ := by
  induction l generalizing s with
  | nil => simp
  | cons e l ih =>
    simp only [List.foldl_cons]
    obtain ⟨h1, h2, h3, h4⟩ := ih (apply_param_event s e)
    obtain ⟨k1, k2, k3, k4⟩ := apply_param_event_frame s e
    exact ⟨h1.trans k1, h2.trans k2, h3.trans k3, h4.trans k4⟩

theorem apply_param_events_frame (s : GainPlugin α) (events : Option (clap_input_events α)) :
    (apply_param_events s events).current_gain_ = s.current_gain_ ∧
    (apply_param_events s events).sample_rate_ = s.sample_rate_ ∧
    (apply_param_events s events).host_ = s.host_ ∧
    (apply_param_events s events).gui_context_ = s.gui_context_ := by
  rw [apply_param_events_eq_foldl]
  exact foldl_apply_param_event_frame _ s

theorem foldl_apply_param_event_of_no_gain (l : List (Option (clap_event_param_value α)))
    (s : GainPlugin α) (h : ∀ e ∈ l, ¬ is_gain_event e) :
    l.foldl apply_param_event s = s := by
  induction l generalizing s with
  | nil => rfl
  | cons e l ih =>
    simp only [List.foldl_cons]
    rw [apply_param_event_of_not_gain s e (h e (List.mem_cons_self e l))]
    exact ih s (fun x hx => h x (List.mem_cons_of_mem e hx))

theorem apply_param_events_of_no_gain (s : GainPlugin α) (events : Option (clap_input_events α))
    (h : ∀ e ∈ delivered events, ¬ is_gain_event e) : apply_param_events s events = s := by
  rw [apply_param_events_eq_foldl]
  exact foldl_apply_param_event_of_no_gain _ s h

theorem foldl_apply_param_event_last (pre post : List (Option (clap_event_param_value α)))
    (ev : clap_event_param_value α) (s : GainPlugin α)
    (hg : is_gain_event (some ev)) (hpost : ∀ e ∈ post, ¬ is_gain_event e) :
    ((pre ++ some ev :: post).foldl apply_param_event s).gain_db_ = clamp ev.value (-60) 12 := by
  rw [List.foldl_append, List.foldl_cons, foldl_apply_param_event_of_no_gain post _ hpost,
    apply_param_event_of_gain _ ev hg]

theorem foldl_apply_param_event_range (l : List (Option (clap_event_param_value α)))
    (s : GainPlugin α) (h : -60 ≤ s.gain_db_ ∧ s.gain_db_ ≤ 12) :
    -60 ≤ (l.foldl apply_param_event s).gain_db_ ∧ (l.foldl apply_param_event s).gain_db_ ≤ 12 := by
  induction l generalizing s with
  | nil => exact h
  | cons e l ih =>
    simp only [List.foldl_cons]
    apply ih
    by_cases hg : is_gain_event e
    · obtain ⟨ev, he, _⟩ := id hg
      subst he
      rw [apply_param_event_of_gain s ev hg]
      exact clamp_range ev.value
    · rw [apply_param_event_of_not_gain s e hg]
      exact h

theorem apply_param_events_range (s : GainPlugin α) (events : Option (clap_input_events α))
    (h : -60 ≤ s.gain_db_ ∧ s.gain_db_ ≤ 12) :
    -60 ≤ (apply_param_events s events).gain_db_ ∧ (apply_param_events s events).gain_db_ ≤ 12 := by
  rw [apply_param_events_eq_foldl]
  exact foldl_apply_param_event_range _ s h

/-- The result of `process` on a block that passes every guard. -/
theorem process_of_valid (m : Libm α) (s : GainPlugin α) (p : clap_process α)
    (inp out : Nat → Nat → α)
    (hin : p.audio_inputs_count ≠ 0) (hout : p.audio_outputs_count ≠ 0)
    (hi : (p.audio_inputs 0).data32 = some inp) (ho : (p.audio_outputs 0).data32 = some out)
    (hch : 1 ≤ min (p.audio_inputs 0).channel_count (p.audio_outputs 0).channel_count) :
    process m s (some p) =
      ⟨CLAP_PROCESS_CONTINUE,
       { (apply_param_events s p.in_events) with
         current_gain_ := (process_frames (db_to_gain m (apply_param_events s p.in_events).gain_db_)
           (smoothing_coefficient m (apply_param_events s p.in_events).sample_rate_) inp
           (min (p.audio_inputs 0).channel_count (p.audio_outputs 0).channel_count) p.frames_count
           (apply_param_events s p.in_events).current_gain_ out).1 },
       some { p with audio_outputs := fun port =>
         if port = 0 then
           { (p.audio_outputs 0) with
             data32 := some (process_frames
               (db_to_gain m (apply_param_events s p.in_events).gain_db_)
               (smoothing_coefficient m (apply_param_events s p.in_events).sample_rate_) inp
               (min (p.audio_inputs 0).channel_count (p.audio_outputs 0).channel_count)
               p.frames_count (apply_param_events s p.in_events).current_gain_ out).2 }
         else p.audio_outputs port }⟩ := by
  have hports : ¬ (p.audio_inputs_count = 0 ∨ p.audio_outputs_count = 0) := by
    rintro (h | h)
    · exact hin h
    · exact hout h
  have hch0 : ¬ (min (p.audio_inputs 0).channel_count (p.audio_outputs 0).channel_count = 0) := by
    omega
  unfold process
  simp only [hports, if_false, hi, ho, hch0]

end Lemmas

section ProcessLemmas

variable {α : Type} [LinearOrderedField α]

/-- The result of `process` on a block without input port or without output port. -/
theorem process_of_no_port (m : Libm α) (s : GainPlugin α) (p : clap_process α)
    (h : p.audio_inputs_count = 0 ∨ p.audio_outputs_count = 0) :
    process m s (some p) = ⟨CLAP_PROCESS_CONTINUE, s, some p⟩ := by
  unfold process
  simp only [h, if_true]

/-- The result of `process` on a block with ports whose port 0 has a null 32-bit buffer
or no active channel. -/
theorem process_of_no_buffer (m : Libm α) (s : GainPlugin α) (p : clap_process α)
    (hin : p.audio_inputs_count ≠ 0) (hout : p.audio_outputs_count ≠ 0)
    (h : (p.audio_inputs 0).data32 = none ∨ (p.audio_outputs 0).data32 = none ∨
      min (p.audio_inputs 0).channel_count (p.audio_outputs 0).channel_count = 0) :
    process m s (some p)
      = ⟨CLAP_PROCESS_CONTINUE, apply_param_events s p.in_events, some p⟩ := by
  have hports : ¬ (p.audio_inputs_count = 0 ∨ p.audio_outputs_count = 0) := by
    rintro (h | h)
    · exact hin h
    · exact hout h
  unfold process
  simp only [hports, if_false]
  cases hi : (p.audio_inputs 0).data32 with
  | none => rfl
  | some ind =>
    cases ho : (p.audio_outputs 0).data32 with
    | none => rfl
    | some outd =>
      rcases h with h | h | h
      · rw [hi] at h; cases h
      · rw [ho] at h; cases h
      · simp only [h, if_true]

omit [LinearOrderedField α] in
/-- Every block either has a port count of zero, or fails a buffer guard, or passes
every guard. -/
theorem block_cases (p : clap_process α) :
    (p.audio_inputs_count = 0 ∨ p.audio_outputs_count = 0) ∨
    (p.audio_inputs_count ≠ 0 ∧ p.audio_outputs_count ≠ 0 ∧
      ((p.audio_inputs 0).data32 = none ∨ (p.audio_outputs 0).data32 = none ∨
        min (p.audio_inputs 0).channel_count (p.audio_outputs 0).channel_count = 0)) ∨
    (p.audio_inputs_count ≠ 0 ∧ p.audio_outputs_count ≠ 0 ∧
      (∃ inp, (p.audio_inputs 0).data32 = some inp) ∧
      (∃ out, (p.audio_outputs 0).data32 = some out) ∧
      1 ≤ min (p.audio_inputs 0).channel_count (p.audio_outputs 0).channel_count) := by
  by_cases h1 : p.audio_inputs_count = 0
  · exact Or.inl (Or.inl h1)
  by_cases h2 : p.audio_outputs_count = 0
  · exact Or.inl (Or.inr h2)
  right
  cases hi : (p.audio_inputs 0).data32 with
  | none => exact Or.inl ⟨h1, h2, Or.inl rfl⟩
  | some ind =>
    cases ho : (p.audio_outputs 0).data32 with
    | none => exact Or.inl ⟨h1, h2, Or.inr (Or.inl rfl)⟩
    | some outd =>
      by_cases hc : min (p.audio_inputs 0).channel_count (p.audio_outputs 0).channel_count = 0
      · exact Or.inl ⟨h1, h2, Or.inr (Or.inr hc)⟩
      · exact Or.inr ⟨h1, h2, ⟨ind, rfl⟩, ⟨outd, rfl⟩, by omega⟩

theorem process_status (m : Libm α) (s : GainPlugin α) (p : Option (clap_process α)) :
    (process m s p).status = CLAP_PROCESS_CONTINUE := by
  cases p with
  | none => rfl
  | some p =>
    rcases block_cases p with h | ⟨h1, h2, h⟩ | ⟨h1, h2, ⟨inp, hi⟩, ⟨out, ho⟩, hc⟩
    · rw [process_of_no_port m s p h]
    · rw [process_of_no_buffer m s p h1 h2 h]
    · rw [process_of_valid m s p inp out h1 h2 hi ho hc]

/-- The fields of the instance that `process` can change are the gain parameter and
its mirror (through the event merge) and the smoothed gain. -/
theorem process_plugin_fields (m : Libm α) (s : GainPlugin α) (p : Option (clap_process α)) :
    ((process m s p).plugin.gain_db_ = s.gain_db_ ∨
      ∃ q, p = some q ∧ (process m s p).plugin.gain_db_ = (apply_param_events s q.in_events).gain_db_) ∧
    (process m s p).plugin.sample_rate_ = s.sample_rate_ := by
  cases p with
  | none => exact ⟨Or.inl rfl, rfl⟩
  | some p =>
    rcases block_cases p with h | ⟨h1, h2, h⟩ | ⟨h1, h2, ⟨inp, hi⟩, ⟨out, ho⟩, hc⟩
    · rw [process_of_no_port m s p h]
      exact ⟨Or.inl rfl, rfl⟩
    · rw [process_of_no_buffer m s p h1 h2 h]
      exact ⟨Or.inr ⟨p, rfl, rfl⟩, (apply_param_events_frame s p.in_events).2.1⟩
    · rw [process_of_valid m s p inp out h1 h2 hi ho hc]
      exact ⟨Or.inr ⟨p, rfl, rfl⟩, (apply_param_events_frame s p.in_events).2.1⟩

theorem Call.apply_range (m : Libm α) (s : GainPlugin α) (c : Call α)
    (h : -60 ≤ s.gain_db_ ∧ s.gain_db_ ≤ 12) :
    -60 ≤ (c.apply m s).gain_db_ ∧ (c.apply m s).gain_db_ ≤ 12 := by
  cases c with
  | init => exact h
  | activate sr mn mx => exact h
  | deactivate => exact h
  | start_processing => exact h
  | stop_processing => exact h
  | reset => exact h
  | process p =>
    rcases (process_plugin_fields m s p).1 with hp | ⟨q, _, hp⟩
    · simp only [Call.apply]
      rw [hp]
      exact h
    · simp only [Call.apply]
      rw [hp]
      exact apply_param_events_range s q.in_events h
  | params_flush inp => exact apply_param_events_range s inp h

theorem run_range (m : Libm α) (calls : List (Call α)) (s : GainPlugin α)
    (h : -60 ≤ s.gain_db_ ∧ s.gain_db_ ≤ 12) :
    -60 ≤ (run m s calls).gain_db_ ∧ (run m s calls).gain_db_ ≤ 12 := by
  induction calls generalizing s with
  | nil => exact h
  | cons c cs ih => exact ih (c.apply m s) (Call.apply_range m s c h)

end ProcessLemmas

section SmoothingLemmas

variable {α : Type} [LinearOrderedField α]

theorem applied_gain_spec_add (t k g : α) (n j : Nat) :
    applied_gain_spec t k (applied_gain_spec t k g n) j = applied_gain_spec t k g (n + j) := by
  induction j with
  | zero => rfl
  | succ j ih => rw [← Nat.add_assoc, applied_gain_spec, applied_gain_spec, ih]

/-- On a block that passes every guard and carries no gain event, `process` changes
the smoothed gain only, by `frames_count` steps of the recurrence. -/
theorem process_plugin_of_valid_no_gain (m : Libm α) (s : GainPlugin α) (p : clap_process α)
    (hv : valid_block p) (hno : ∀ e ∈ delivered p.in_events, ¬ is_gain_event e) :
    (process m s (some p)).plugin
      = { s with
          current_gain_ := applied_gain_spec (db_to_gain m s.gain_db_)
            (smoothing_coefficient m s.sample_rate_) s.current_gain_ p.frames_count } := by
  obtain ⟨h1, h2, hi, ho, hc⟩ := hv
  obtain ⟨inp, hi⟩ := Option.ne_none_iff_exists'.mp hi
  obtain ⟨out, ho⟩ := Option.ne_none_iff_exists'.mp ho
  rw [process_of_valid m s p inp out h1 h2 hi ho hc, apply_param_events_of_no_gain s _ hno]
  simp only [process_frames_gain]

theorem process_blocks_of_valid_no_gain (m : Libm α) (blocks : List (clap_process α))
    (s : GainPlugin α) (hv : ∀ p ∈ blocks, valid_block p)
    (hno : ∀ p ∈ blocks, ∀ e ∈ delivered p.in_events, ¬ is_gain_event e) :
    process_blocks m s blocks
      = { s with
          current_gain_ := applied_gain_spec (db_to_gain m s.gain_db_)
            (smoothing_coefficient m s.sample_rate_) s.current_gain_
            (blocks.map (fun p => p.frames_count)).sum } := by
  induction blocks generalizing s with
  | nil => rfl
  | cons p ps ih =>
    have hp := process_plugin_of_valid_no_gain m s p (hv p (List.mem_cons_self p ps))
      (hno p (List.mem_cons_self p ps))
    have hps := ih ((process m s (some p)).plugin)
      (fun q hq => hv q (List.mem_cons_of_mem p hq))
      (fun q hq => hno q (List.mem_cons_of_mem p hq))
    unfold process_blocks at hps ⊢
    rw [List.foldl_cons, hps, hp]
    simp only [List.map_cons, List.sum_cons, applied_gain_spec_add]

/-- On a block that passes every guard, the smoothed gain after `j` iterations of the
frame loop is the `j`-th term of the recurrence started at the gain on entry. -/
theorem gain_after_eq (m : Libm α) (s : GainPlugin α) (p : clap_process α) (j : Nat)
    (hv : valid_block p) :
    gain_after m s p j
      = applied_gain_spec (db_to_gain m (apply_param_events s p.in_events).gain_db_)
          (smoothing_coefficient m s.sample_rate_) s.current_gain_ j := by
  obtain ⟨h1, h2, hi, ho, hc⟩ := hv
  obtain ⟨inp, hi⟩ := Option.ne_none_iff_exists'.mp hi
  obtain ⟨out, ho⟩ := Option.ne_none_iff_exists'.mp ho
  obtain ⟨hg, hsr, _, _⟩ := apply_param_events_frame s p.in_events
  unfold gain_after
  rw [process_of_valid m s { p with frames_count := j } inp out h1 h2 hi ho hc]
  simp only [process_frames_gain, hg, hsr]

end SmoothingLemmas

section DemoLemmas

variable {α : Type} [LinearOrderedField α]

/-- The event merge on a list holding one gain event. -/
theorem apply_param_events_demo_single (s : GainPlugin α) (v : α) :
    (apply_param_events s (some (demo_events α [some (demo_event α 0 v)]))).gain_db_
      = clamp v (-60) 12 := by
  have hd : delivered (some (demo_events α [some (demo_event α 0 v)]))
      = [] ++ some (demo_event α 0 v) :: [] := by
    simp [delivered, demo_events, List.range_succ]
  rw [apply_param_events_eq_foldl, hd]
  exact foldl_apply_param_event_last [] [] (demo_event α 0 v) s ⟨_, rfl, rfl, by simp [demo_event], rfl⟩
    (by simp)

omit [LinearOrderedField α] in
theorem valid_block_demo_block [LinearOrderedField α] (frames : Nat)
    (l : List (Option (clap_event_param_value α))) : valid_block (demo_block α frames l) := by
  simp [valid_block, demo_block, demo_buffer]

end DemoLemmas

section SampleLemmas

variable {α : Type} [LinearOrderedField α]

/-- The output samples that `process` writes on a block that passes every guard. -/
theorem process_sample_of_valid (m : Libm α) (s : GainPlugin α) (p : clap_process α)
    (inp out : Nat → Nat → α)
    (hin : p.audio_inputs_count ≠ 0) (hout : p.audio_outputs_count ≠ 0)
    (hi : (p.audio_inputs 0).data32 = some inp) (ho : (p.audio_outputs 0).data32 = some out)
    (hch : 1 ≤ min (p.audio_inputs 0).channel_count (p.audio_outputs 0).channel_count)
    (i ch : Nat) (hi2 : i < p.frames_count)
    (hc : ch < min (p.audio_inputs 0).channel_count (p.audio_outputs 0).channel_count) :
    sample_of (process m s (some p)).process 0 ch i
      = some (inp ch i * applied_gain_spec
          (db_to_gain m (apply_param_events s p.in_events).gain_db_)
          (smoothing_coefficient m s.sample_rate_) s.current_gain_ (i + 1)) := by
  obtain ⟨hg, hsr, _, _⟩ := apply_param_events_frame s p.in_events
  rw [process_of_valid _ s p inp out hin hout hi ho hch]
  simp only [sample_of, if_true, Option.map_some', hg, hsr]
  rw [process_frames_out, if_pos ⟨hc, hi2⟩]

end SampleLemmas

section RealLemmas

/-- For a rate other than zero the coefficient is the exponential of the quotient. -/
theorem smoothing_coefficient_real (sr : ℝ) (h : sr ≠ 0) :
    smoothing_coefficient ⟨Real.exp, Real.rpow⟩ sr = Real.exp (-1 / (0.01 * sr)) := by
  unfold smoothing_coefficient
  rw [if_neg (mul_ne_zero (by norm_num) h)]

/-- At rate zero the coefficient is `0`, the value of `std::exp(-inf)`. -/
theorem smoothing_coefficient_real_zero :
    smoothing_coefficient ⟨Real.exp, Real.rpow⟩ (0 : ℝ) = 0 := by
  unfold smoothing_coefficient
  rw [if_pos (mul_zero _)]

theorem smoothing_pos_lt_one (sr : ℝ) (h : 0 < sr) :
    0 < Real.exp (-1 / (0.01 * sr)) ∧ Real.exp (-1 / (0.01 * sr)) < 1 := by
  refine ⟨Real.exp_pos _, ?_⟩
  rw [Real.exp_lt_one_iff]
  have : 0 < 0.01 * sr := by positivity
  exact div_neg_of_neg_of_pos (by norm_num) this

theorem smoothing_pow_le (sr : ℝ) (n : ℕ) (h : 0 < sr) (hn : 5 * 0.01 * sr ≤ (n : ℝ)) :
    Real.exp (-1 / (0.01 * sr)) ^ n ≤ Real.exp (-5) := by
  rw [← Real.exp_nat_mul, Real.exp_le_exp]
  have h2 : 0 < 0.01 * sr := by positivity
  have h3 : (n : ℝ) * (-1 / (0.01 * sr)) = -((n : ℝ) / (0.01 * sr)) := by ring
  rw [h3, neg_le_neg_iff, le_div_iff₀ h2]
  linarith

theorem exp_neg_five_lt : Real.exp (-5) < 0.01 := by
  have h1 : (2.7 : ℝ) < Real.exp 1 := lt_trans (by norm_num) Real.exp_one_gt_d9
  have h5 : Real.exp 5 = Real.exp 1 ^ 5 := by
    rw [← Real.exp_nat_mul]; norm_num
  have h2 : (100 : ℝ) < Real.exp 5 := by
    rw [h5]
    calc (100 : ℝ) < 2.7 ^ 5 := by norm_num
      _ < Real.exp 1 ^ 5 := pow_lt_pow_left₀ h1 (by norm_num) (by norm_num)
  rw [Real.exp_neg]
  rw [inv_lt_comm₀ (Real.exp_pos 5) (by norm_num)]
  norm_num
  linarith

theorem rpow_neg_sixty_db : (10 : ℝ) ^ ((-60 : ℝ) / 20) = 0.001 := by
  have : ((-60 : ℝ) / 20) = -(3 : ℕ) := by norm_num
  rw [this, Real.rpow_neg (by norm_num), Real.rpow_natCast]
  norm_num

theorem rpow_zero_db : (10 : ℝ) ^ ((0 : ℝ) / 20) = 1 := by
  rw [zero_div, Real.rpow_zero]

end RealLemmas

/-! ## The processing core: smoothing, event merge, lifecycle -/

/-- C1: on a block with at least one input and one output port, non-null 32-bit buffers
on port 0 and at least one active channel, `process` writes
`output[ch][i] = input[ch][i] * a (i+1)` for every frame `i < frames_count` and channel
`ch < channels`, where `a 0 = g0` and `a (j+1) = target + k * (a j - target)`,
`target = 10^(d/20)` for the gain parameter `d` after the event merge and `k` the
coefficient `std::exp(-1.0 / (0.01 * sample_rate_))`: `exp(-1/(0.01 * sample_rate))` for
every rate other than zero, and `0 = exp(-inf)` at rate zero, where the quotient is
`-inf`.  The smoothed gain on exit is `a frames_count = target + k^frames_count *
(g0 - target)`; the status is continue. -/
theorem process_smoothing_contract (s : GainPlugin ℝ) (p : clap_process ℝ)
    (inp out : Nat → Nat → ℝ)
    (hin : p.audio_inputs_count ≠ 0) (hout : p.audio_outputs_count ≠ 0)
    (hi : (p.audio_inputs 0).data32 = some inp) (ho : (p.audio_outputs 0).data32 = some out)
    (hch : 1 ≤ min (p.audio_inputs 0).channel_count (p.audio_outputs 0).channel_count) :
    (s.sample_rate_ ≠ 0 →
      smoothing_coefficient ⟨Real.exp, Real.rpow⟩ s.sample_rate_
        = Real.exp (-1 / (0.01 * s.sample_rate_))) ∧
    (s.sample_rate_ = 0 → smoothing_coefficient ⟨Real.exp, Real.rpow⟩ s.sample_rate_ = 0) ∧
    (∀ i ch, i < p.frames_count →
      ch < min (p.audio_inputs 0).channel_count (p.audio_outputs 0).channel_count →
      sample_of (process ⟨Real.exp, Real.rpow⟩ s (some p)).process 0 ch i
        = some (inp ch i * applied_gain_spec
            ((10 : ℝ) ^ ((apply_param_events s p.in_events).gain_db_ / 20))
            (smoothing_coefficient ⟨Real.exp, Real.rpow⟩ s.sample_rate_)
            s.current_gain_ (i + 1))) ∧
    (process ⟨Real.exp, Real.rpow⟩ s (some p)).plugin.current_gain_
      = applied_gain_spec ((10 : ℝ) ^ ((apply_param_events s p.in_events).gain_db_ / 20))
          (smoothing_coefficient ⟨Real.exp, Real.rpow⟩ s.sample_rate_)
          s.current_gain_ p.frames_count ∧
    applied_gain_spec ((10 : ℝ) ^ ((apply_param_events s p.in_events).gain_db_ / 20))
        (smoothing_coefficient ⟨Real.exp, Real.rpow⟩ s.sample_rate_)
        s.current_gain_ p.frames_count
      = (10 : ℝ) ^ ((apply_param_events s p.in_events).gain_db_ / 20)
        + smoothing_coefficient ⟨Real.exp, Real.rpow⟩ s.sample_rate_ ^ p.frames_count
          * (s.current_gain_ - (10 : ℝ) ^ ((apply_param_events s p.in_events).gain_db_ / 20)) ∧
    (process ⟨Real.exp, Real.rpow⟩ s (some p)).status = CLAP_PROCESS_CONTINUE := by
  obtain ⟨hg, hsr, _, _⟩ := apply_param_events_frame s p.in_events
  have hdb : ∀ d : ℝ, db_to_gain ⟨Real.exp, Real.rpow⟩ d = (10 : ℝ) ^ (d / 20) := fun _ => rfl
  refine ⟨smoothing_coefficient_real _, ?_, ?_, ?_, ?_, process_status _ _ _⟩
  · intro h0
    rw [h0]
    exact smoothing_coefficient_real_zero
  · intro i ch hi2 hc
    exact process_sample_of_valid _ s p inp out hin hout hi ho hch i ch hi2 hc
  · rw [process_of_valid _ s p inp out hin hout hi ho hch]
    simp only [hg, hsr, hdb]
    exact process_frames_gain _ _ _ _ _ _ _
  · exact applied_gain_spec_closed _ _ _ _

/-- C1 at two concrete calls with two frames of constant input `1` and one event that
sets the gain to -20 dB: on a fresh instance (rate 48000) the sample of frame 1 is the
second term of the recurrence with `k = exp(-1/480)`; on an instance whose rate is 0
after a rejected `activate(0)` the coefficient is 0 and the sample is the target. -/
theorem process_smoothing_contract_witness :
    sample_of (process ⟨Real.exp, Real.rpow⟩ (GainPlugin.new true)
        (some (demo_block ℝ 2 [some (demo_event ℝ 0 (-20))]))).process 0 1 1
      = some (1 * applied_gain_spec ((10 : ℝ) ^ ((-20 : ℝ) / 20))
          (Real.exp (-1 / (0.01 * 48000))) 1 2) ∧
    sample_of (process ⟨Real.exp, Real.rpow⟩
        (activate ⟨Real.exp, Real.rpow⟩ (GainPlugin.new true) 0).2
        (some (demo_block ℝ 2 [some (demo_event ℝ 0 (-20))]))).process 0 1 1
      = some ((10 : ℝ) ^ ((-20 : ℝ) / 20)) := by
  have hg : ∀ s : GainPlugin ℝ, (apply_param_events s
      (demo_block ℝ 2 [some (demo_event ℝ 0 (-20))]).in_events).gain_db_ = -20 := by
    intro s
    simp only [demo_block]
    rw [apply_param_events_demo_single, clamp_of_mem _ (by norm_num) (by norm_num)]
  have h1 := process_smoothing_contract (GainPlugin.new true)
    (demo_block ℝ 2 [some (demo_event ℝ 0 (-20))]) (fun _ _ => 1) (fun _ _ => 0)
    (by simp [demo_block]) (by simp [demo_block]) rfl rfl (by simp [demo_block, demo_buffer])
  have h2 := process_smoothing_contract
    (activate ⟨Real.exp, Real.rpow⟩ (GainPlugin.new true) 0).2
    (demo_block ℝ 2 [some (demo_event ℝ 0 (-20))]) (fun _ _ => 1) (fun _ _ => 0)
    (by simp [demo_block]) (by simp [demo_block]) rfl rfl (by simp [demo_block, demo_buffer])
  constructor
  · have h := h1.2.2.1 1 1 (by simp [demo_block]) (by simp [demo_block, demo_buffer])
    rw [h1.1 (by simp [GainPlugin.new]), hg] at h
    exact h
  · have h := h2.2.2.1 1 1 (by simp [demo_block]) (by simp [demo_block, demo_buffer])
    rw [h2.2.1 rfl, hg] at h
    rw [h]
    simp [applied_gain_spec]

/-- C2: `apply_param_events` folds the delivered events in arrival order.  When the list
holds a gain event `ev` with no gain event after it, the stored gain parameter
afterwards is `clamp(ev.value, -60, 12)`, which is `ev.value` itself inside the range and
the nearest bound outside; when the list holds no gain event, the stored gain parameter
is unchanged.  The smoothed gain is never modified. -/
theorem apply_param_events_last_gain_event (s : GainPlugin ℝ)
    (events : Option (clap_input_events ℝ)) :
    (∀ pre post ev, delivered events = pre ++ some ev :: post →
      is_gain_event (some ev) → (∀ e ∈ post, ¬ is_gain_event e) →
      (apply_param_events s events).gain_db_ = clamp ev.value (-60) 12 ∧
      (-60 ≤ ev.value → ev.value ≤ 12 → (apply_param_events s events).gain_db_ = ev.value) ∧
      (ev.value < -60 → (apply_param_events s events).gain_db_ = -60) ∧
      (12 < ev.value → (apply_param_events s events).gain_db_ = 12)) ∧
    ((∀ e ∈ delivered events, ¬ is_gain_event e) →
      (apply_param_events s events).gain_db_ = s.gain_db_) ∧
    (apply_param_events s events).current_gain_ = s.current_gain_ := by
  refine ⟨?_, ?_, (apply_param_events_frame s events).1⟩
  · intro pre post ev hd hg hpost
    have h : (apply_param_events s events).gain_db_ = clamp ev.value (-60) 12 := by
      rw [apply_param_events_eq_foldl, hd]
      exact foldl_apply_param_event_last pre post ev s hg hpost
    refine ⟨h, ?_, ?_, ?_⟩
    · intro h1 h2
      rw [h, clamp_of_mem _ h1 h2]
    · intro h1
      rw [h, clamp_of_lt _ h1]
    · intro h1
      rw [h, clamp_of_gt _ h1]
  · intro hno
    rw [apply_param_events_of_no_gain s events hno]

/-- C2 at a concrete list: a gain event of 3 dB, a gain event of -100 dB, then an event
for another parameter; the stored gain parameter ends at the lower bound. -/
theorem apply_param_events_last_gain_event_witness :
    (apply_param_events (GainPlugin.new true : GainPlugin ℝ)
      (some (demo_events ℝ [some (demo_event ℝ 0 3), some (demo_event ℝ 0 (-100)),
        some (demo_event ℝ 7 5)]))).gain_db_ = -60 :=
  ((apply_param_events_last_gain_event (GainPlugin.new true)
    (some (demo_events ℝ [some (demo_event ℝ 0 3), some (demo_event ℝ 0 (-100)),
        some (demo_event ℝ 7 5)]))).1
    [some (demo_event ℝ 0 3)] [some (demo_event ℝ 7 5)] (demo_event ℝ 0 (-100))
    (by simp [delivered, demo_events, List.range_succ])
    ⟨_, rfl, rfl, by simp [demo_event], rfl⟩
    (by
      intro e he
      rintro ⟨ev, hev, _, _, hid⟩
      simp only [List.mem_singleton] at he
      rw [he] at hev
      cases hev
      simp [demo_event] at hid)).2.2.1
    (by simp [demo_event]; norm_num)

/-- C3: in every state reached from a freshly constructed instance by any sequence of
lifecycle calls, `process` calls and `params.flush` calls with arbitrary real-valued
events, the stored gain parameter lies in `[-60, 12]`; this is the value
`params.get_value` hands out, and the value `process` reads after merging the events of
any further block lies in the range as well. -/
theorem gain_parameter_range_invariant (host : Bool) (calls : List (Call ℝ)) :
    (-60 ≤ (run ⟨Real.exp, Real.rpow⟩ (GainPlugin.new host) calls).gain_db_ ∧
      (run ⟨Real.exp, Real.rpow⟩ (GainPlugin.new host) calls).gain_db_ ≤ 12) ∧
    (∃ v, params_get_value (run ⟨Real.exp, Real.rpow⟩ (GainPlugin.new host) calls)
        kGainParamId true = some v ∧ -60 ≤ v ∧ v ≤ 12) ∧
    (∀ events : Option (clap_input_events ℝ),
      -60 ≤ (apply_param_events (run ⟨Real.exp, Real.rpow⟩ (GainPlugin.new host) calls)
        events).gain_db_ ∧
      (apply_param_events (run ⟨Real.exp, Real.rpow⟩ (GainPlugin.new host) calls)
        events).gain_db_ ≤ 12) := by
  have h0 : -60 ≤ (GainPlugin.new host : GainPlugin ℝ).gain_db_ ∧
      (GainPlugin.new host : GainPlugin ℝ).gain_db_ ≤ 12 := by
    simp only [GainPlugin.new]
    constructor <;> norm_num
  have h := run_range ⟨Real.exp, Real.rpow⟩ calls (GainPlugin.new host) h0
  refine ⟨h, ⟨_, ?_, h⟩, fun events => apply_param_events_range _ events h⟩
  simp [params_get_value]

/-- C4: on an instance with sample rate `sr > 1`, after processing blocks that pass
every guard and carry no gain event, `n` frames in total with `n ≥ 5 * 0.01 * sr`, the
smoothed gain `g_n` satisfies `|g_n - target| ≤ exp(-5) * |g_0 - target|` for the
constant `target = 10^(gain_db/20)`, hence `|g_n - target| < 0.01 * |g_0 - target|`
whenever `g_0 ≠ target`. -/
theorem smoothing_convergence (s : GainPlugin ℝ) (blocks : List (clap_process ℝ))
    (hsr : 1 < s.sample_rate_)
    (hv : ∀ p ∈ blocks, valid_block p)
    (hno : ∀ p ∈ blocks, ∀ e ∈ delivered p.in_events, ¬ is_gain_event e)
    (hn : 5 * 0.01 * s.sample_rate_ ≤ ((blocks.map (fun p => p.frames_count)).sum : ℕ)) :
    |(process_blocks ⟨Real.exp, Real.rpow⟩ s blocks).current_gain_ - (10 : ℝ) ^ (s.gain_db_ / 20)|
      ≤ Real.exp (-5) * |s.current_gain_ - (10 : ℝ) ^ (s.gain_db_ / 20)| ∧
    (s.current_gain_ ≠ (10 : ℝ) ^ (s.gain_db_ / 20) →
      |(process_blocks ⟨Real.exp, Real.rpow⟩ s blocks).current_gain_ - (10 : ℝ) ^ (s.gain_db_ / 20)|
        < 0.01 * |s.current_gain_ - (10 : ℝ) ^ (s.gain_db_ / 20)|) := by
  have hdb : db_to_gain ⟨Real.exp, Real.rpow⟩ s.gain_db_ = (10 : ℝ) ^ (s.gain_db_ / 20) := rfl
  have hpos : 0 < s.sample_rate_ := lt_trans zero_lt_one hsr
  have hk := smoothing_pow_le s.sample_rate_ _ hpos hn
  have hk0 : 0 ≤ Real.exp (-1 / (0.01 * s.sample_rate_))
      ^ (blocks.map (fun p => p.frames_count)).sum := pow_nonneg (Real.exp_pos _).le _
  have hle : |(process_blocks ⟨Real.exp, Real.rpow⟩ s blocks).current_gain_
        - (10 : ℝ) ^ (s.gain_db_ / 20)|
      ≤ Real.exp (-5) * |s.current_gain_ - (10 : ℝ) ^ (s.gain_db_ / 20)| := by
    rw [process_blocks_of_valid_no_gain _ blocks s hv hno]
    simp only [hdb]
    rw [smoothing_coefficient_real _ hpos.ne', applied_gain_spec_closed, add_sub_cancel_left,
      abs_mul, abs_of_nonneg hk0]
    exact mul_le_mul_of_nonneg_right hk (abs_nonneg _)
  refine ⟨hle, fun hne => lt_of_le_of_lt hle ?_⟩
  have habs : 0 < |s.current_gain_ - (10 : ℝ) ^ (s.gain_db_ / 20)| :=
    abs_pos.mpr (sub_ne_zero.mpr hne)
  exact mul_lt_mul_of_pos_right exp_neg_five_lt habs

/-- C4 at a concrete run: an instance at 48000 Hz whose gain parameter stands at
-60 dB while the smoothed gain is still 1, and one block of 2400 frames. -/
theorem smoothing_convergence_witness :
    |(process_blocks ⟨Real.exp, Real.rpow⟩
        { (GainPlugin.new true : GainPlugin ℝ) with gain_db_ := -60 }
        [demo_block ℝ 2400 []]).current_gain_ - (10 : ℝ) ^ ((-60 : ℝ) / 20)|
      ≤ Real.exp (-5) * |(1 : ℝ) - (10 : ℝ) ^ ((-60 : ℝ) / 20)| :=
  (smoothing_convergence { (GainPlugin.new true : GainPlugin ℝ) with gain_db_ := -60 }
    [demo_block ℝ 2400 []]
    (by simp [GainPlugin.new])
    (by simp [valid_block, demo_block, demo_buffer])
    (by simp [delivered, demo_block, demo_events])
    (by simp [GainPlugin.new, demo_block]; norm_num)).1

/-- C5: on an instance with sample rate `sr > 0` and a block that passes every guard,
with `a j` the smoothed gain after `j` frames (`a 0 = g0`), `0 < k < 1` and every frame
changes the applied gain by `|a (i+1) - a i| = (1 - k) * |a i - target|
≤ (1 - k) * |g0 - target|`: the gain moves the fraction `1 - k` of the remaining
distance; when `g0 ≠ target` no frame reaches the target and the distance
`|a i - target|` is strictly decreasing in `i`. -/
theorem smoothing_continuity (s : GainPlugin ℝ) (p : clap_process ℝ)
    (hsr : 0 < s.sample_rate_) (hv : valid_block p) :
    (0 < Real.exp (-1 / (0.01 * s.sample_rate_)) ∧ Real.exp (-1 / (0.01 * s.sample_rate_)) < 1) ∧
    gain_after ⟨Real.exp, Real.rpow⟩ s p 0 = s.current_gain_ ∧
    (∀ i,
      gain_after ⟨Real.exp, Real.rpow⟩ s p (i + 1) - gain_after ⟨Real.exp, Real.rpow⟩ s p i
        = (1 - Real.exp (-1 / (0.01 * s.sample_rate_)))
          * ((10 : ℝ) ^ ((apply_param_events s p.in_events).gain_db_ / 20)
              - gain_after ⟨Real.exp, Real.rpow⟩ s p i) ∧
      |gain_after ⟨Real.exp, Real.rpow⟩ s p (i + 1) - gain_after ⟨Real.exp, Real.rpow⟩ s p i|
        = (1 - Real.exp (-1 / (0.01 * s.sample_rate_)))
          * |gain_after ⟨Real.exp, Real.rpow⟩ s p i
              - (10 : ℝ) ^ ((apply_param_events s p.in_events).gain_db_ / 20)| ∧
      (1 - Real.exp (-1 / (0.01 * s.sample_rate_)))
          * |gain_after ⟨Real.exp, Real.rpow⟩ s p i
              - (10 : ℝ) ^ ((apply_param_events s p.in_events).gain_db_ / 20)|
        ≤ (1 - Real.exp (-1 / (0.01 * s.sample_rate_)))
          * |s.current_gain_ - (10 : ℝ) ^ ((apply_param_events s p.in_events).gain_db_ / 20)|) ∧
    (s.current_gain_ ≠ (10 : ℝ) ^ ((apply_param_events s p.in_events).gain_db_ / 20) →
      ∀ i,
        gain_after ⟨Real.exp, Real.rpow⟩ s p (i + 1)
          ≠ (10 : ℝ) ^ ((apply_param_events s p.in_events).gain_db_ / 20) ∧
        |gain_after ⟨Real.exp, Real.rpow⟩ s p (i + 1)
            - (10 : ℝ) ^ ((apply_param_events s p.in_events).gain_db_ / 20)|
          < |gain_after ⟨Real.exp, Real.rpow⟩ s p i
            - (10 : ℝ) ^ ((apply_param_events s p.in_events).gain_db_ / 20)|) := by
  obtain ⟨hk0, hk1⟩ := smoothing_pos_lt_one s.sample_rate_ hsr
  have hdb : ∀ d : ℝ, db_to_gain ⟨Real.exp, Real.rpow⟩ d = (10 : ℝ) ^ (d / 20) := fun _ => rfl
  have ha : ∀ j, gain_after ⟨Real.exp, Real.rpow⟩ s p j
      = (10 : ℝ) ^ ((apply_param_events s p.in_events).gain_db_ / 20)
        + Real.exp (-1 / (0.01 * s.sample_rate_)) ^ j
          * (s.current_gain_ - (10 : ℝ) ^ ((apply_param_events s p.in_events).gain_db_ / 20)) := by
    intro j
    rw [gain_after_eq _ s p j hv, applied_gain_spec_closed, hdb,
      smoothing_coefficient_real _ hsr.ne']
  generalize (10 : ℝ) ^ ((apply_param_events s p.in_events).gain_db_ / 20) = t at ha ⊢
  generalize Real.exp (-1 / (0.01 * s.sample_rate_)) = k at ha hk0 hk1 ⊢
  have h1k : 0 < 1 - k := by linarith
  have hstep : ∀ i, gain_after ⟨Real.exp, Real.rpow⟩ s p (i + 1) - t
      = k * (gain_after ⟨Real.exp, Real.rpow⟩ s p i - t) := by
    intro i
    rw [ha, ha, pow_succ]
    ring
  have hdist : ∀ i, |gain_after ⟨Real.exp, Real.rpow⟩ s p i - t|
      = k ^ i * |s.current_gain_ - t| := by
    intro i
    rw [ha, add_sub_cancel_left, abs_mul, abs_of_nonneg (pow_nonneg hk0.le i)]
  refine ⟨⟨hk0, hk1⟩, ?_, ?_, ?_⟩
  · rw [ha]
    simp
  · intro i
    have hdiff : gain_after ⟨Real.exp, Real.rpow⟩ s p (i + 1)
        - gain_after ⟨Real.exp, Real.rpow⟩ s p i
        = (1 - k) * (t - gain_after ⟨Real.exp, Real.rpow⟩ s p i) := by
      have := hstep i
      linarith
    refine ⟨hdiff, ?_, ?_⟩
    · rw [hdiff, abs_mul, abs_of_pos h1k, abs_sub_comm]
    · apply mul_le_mul_of_nonneg_left _ h1k.le
      rw [hdist]
      calc k ^ i * |s.current_gain_ - t| ≤ 1 * |s.current_gain_ - t| :=
            mul_le_mul_of_nonneg_right (pow_le_one₀ hk0.le hk1.le) (abs_nonneg _)
        _ = |s.current_gain_ - t| := one_mul _
  · intro hne i
    have hpos : 0 < |gain_after ⟨Real.exp, Real.rpow⟩ s p i - t| := by
      rw [hdist]
      exact mul_pos (pow_pos hk0 i) (abs_pos.mpr (sub_ne_zero.mpr hne))
    have hlt : |gain_after ⟨Real.exp, Real.rpow⟩ s p (i + 1) - t|
        < |gain_after ⟨Real.exp, Real.rpow⟩ s p i - t| := by
      rw [hstep, abs_mul, abs_of_pos hk0]
      calc k * |gain_after ⟨Real.exp, Real.rpow⟩ s p i - t|
          < 1 * |gain_after ⟨Real.exp, Real.rpow⟩ s p i - t| :=
            mul_lt_mul_of_pos_right hk1 hpos
        _ = |gain_after ⟨Real.exp, Real.rpow⟩ s p i - t| := one_mul _
    refine ⟨?_, hlt⟩
    intro heq
    have h2 : 0 < |gain_after ⟨Real.exp, Real.rpow⟩ s p (i + 1) - t| := by
      rw [hstep, abs_mul, abs_of_pos hk0]
      exact mul_pos hk0 hpos
    rw [heq, sub_self, abs_zero] at h2
    exact lt_irrefl _ h2

/-- C5 at the step from 0 dB to -60 dB at 48000 Hz: on a fresh instance (smoothed gain 1)
a block whose event sets the gain to -60 dB has target 0.001, and the first frame does
not land on it. -/
theorem smoothing_continuity_witness :
    gain_after ⟨Real.exp, Real.rpow⟩ (GainPlugin.new true : GainPlugin ℝ)
        (demo_block ℝ 1 [some (demo_event ℝ 0 (-60))]) (0 + 1) ≠ 0.001 := by
  have h := (smoothing_continuity (GainPlugin.new true : GainPlugin ℝ)
    (demo_block ℝ 1 [some (demo_event ℝ 0 (-60))])
    (by simp [GainPlugin.new]) (valid_block_demo_block _ _)).2.2.2
  have hg : (apply_param_events (GainPlugin.new true : GainPlugin ℝ)
      (demo_block ℝ 1 [some (demo_event ℝ 0 (-60))]).in_events).gain_db_ = -60 := by
    simp only [demo_block]
    rw [apply_param_events_demo_single, clamp_of_mem _ (le_refl _) (by norm_num)]
  rw [hg, rpow_neg_sixty_db] at h
  exact (h (by simp [GainPlugin.new]; norm_num) 0).1

/-- C6: on an instance with sample rate `sr > 0` and a block that passes every guard,
every applied gain `a j` lies between the smoothed gain `g0` at block start and the
target: `min g0 target ≤ a j ≤ max g0 target`.  Consequently, after `activate(48000)`
with the gain parameter at 0 dB, a block of constant input 1 without gain event yields
output exactly 1 on every active channel and frame. -/
theorem smoothing_no_overshoot :
    (∀ (s : GainPlugin ℝ) (p : clap_process ℝ), 0 < s.sample_rate_ → valid_block p →
      ∀ j,
        min s.current_gain_ ((10 : ℝ) ^ ((apply_param_events s p.in_events).gain_db_ / 20))
          ≤ gain_after ⟨Real.exp, Real.rpow⟩ s p j ∧
        gain_after ⟨Real.exp, Real.rpow⟩ s p j
          ≤ max s.current_gain_ ((10 : ℝ) ^ ((apply_param_events s p.in_events).gain_db_ / 20))) ∧
    (∀ (s : GainPlugin ℝ) (p : clap_process ℝ) (inp : Nat → Nat → ℝ),
      s.gain_db_ = 0 → valid_block p → (p.audio_inputs 0).data32 = some inp →
      (∀ ch i, inp ch i = 1) → (∀ e ∈ delivered p.in_events, ¬ is_gain_event e) →
      ∀ i ch, i < p.frames_count →
        ch < min (p.audio_inputs 0).channel_count (p.audio_outputs 0).channel_count →
        sample_of (process ⟨Real.exp, Real.rpow⟩ (activate ⟨Real.exp, Real.rpow⟩ s 48000).2
          (some p)).process 0 ch i = some 1) := by
  have hdb : ∀ d : ℝ, db_to_gain ⟨Real.exp, Real.rpow⟩ d = (10 : ℝ) ^ (d / 20) := fun _ => rfl
  constructor
  · intro s p hsr hv j
    obtain ⟨hk0, hk1⟩ := smoothing_pos_lt_one s.sample_rate_ hsr
    rw [gain_after_eq _ s p j hv, applied_gain_spec_closed, hdb,
      smoothing_coefficient_real _ hsr.ne']
    generalize (10 : ℝ) ^ ((apply_param_events s p.in_events).gain_db_ / 20) = t
    generalize Real.exp (-1 / (0.01 * s.sample_rate_)) = k at hk0 hk1 ⊢
    have hp0 : 0 ≤ k ^ j := pow_nonneg hk0.le j
    have hp1 : k ^ j ≤ 1 := pow_le_one₀ hk0.le hk1.le
    rcases le_total s.current_gain_ t with hle | hle
    · rw [min_eq_left hle, max_eq_right hle]
      constructor <;> nlinarith
    · rw [min_eq_right hle, max_eq_left hle]
      constructor <;> nlinarith
  · intro s p inp hdb0 hv hi hone hno i ch hi2 hch
    obtain ⟨h1, h2, _, ho, hc⟩ := hv
    obtain ⟨out, ho⟩ := Option.ne_none_iff_exists'.mp ho
    have hs : (process ⟨Real.exp, Real.rpow⟩ (activate ⟨Real.exp, Real.rpow⟩ s 48000).2
        (some p)) = _ :=
      process_of_valid _ (activate ⟨Real.exp, Real.rpow⟩ s 48000).2 p inp out h1 h2 hi ho hc
    rw [hs, apply_param_events_of_no_gain _ _ hno]
    simp only [sample_of, if_true, Option.map_some']
    rw [process_frames_out, if_pos ⟨hch, hi2⟩, hone, applied_gain_spec_closed]
    simp [activate, reset, hdb0, db_to_gain]

/-- C6 at a concrete run: a fresh instance activated at 48000 Hz and a block of 64 frames
of constant input 1 without events; the sample of frame 63 on channel 1 is 1. -/
theorem smoothing_no_overshoot_witness :
    sample_of (process ⟨Real.exp, Real.rpow⟩
      (activate ⟨Real.exp, Real.rpow⟩ (GainPlugin.new true : GainPlugin ℝ) 48000).2
      (some (demo_block ℝ 64 []))).process 0 1 63 = some 1 :=
  smoothing_no_overshoot.2 (GainPlugin.new true) (demo_block ℝ 64 []) (fun _ _ => 1) rfl
    (valid_block_demo_block _ _) rfl (fun _ _ => rfl)
    (by simp [delivered, demo_block, demo_events]) 63 1 (by simp [demo_block])
    (by simp [demo_block, demo_buffer])

/-- C7, as stated, fails: a freshly constructed instance that was never activated
processes a block like any other; the output sample of frame 0 on channel 0, which
was 0 before the call, is 1 after it. -/
theorem process_lifecycle_guard_counterexample :
    lifecycle_activated ([] : List (Call ℝ)) = false ∧
    sample_of (some (demo_block ℝ 1 [])) 0 0 0 = some 0 ∧
    sample_of (process ⟨Real.exp, Real.rpow⟩
      (run ⟨Real.exp, Real.rpow⟩ (GainPlugin.new true) [])
      (some (demo_block ℝ 1 []))).process 0 0 0 = some 1 := by
  refine ⟨rfl, rfl, ?_⟩
  have h := process_sample_of_valid ⟨Real.exp, Real.rpow⟩ (GainPlugin.new true)
    (demo_block ℝ 1 []) (fun _ _ => 1) (fun _ _ => 0) (by simp [demo_block])
    (by simp [demo_block]) rfl rfl (by simp [demo_block, demo_buffer]) 0 0
    (by simp [demo_block]) (by simp [demo_block, demo_buffer])
  have hno : ∀ e ∈ delivered (demo_block ℝ 1 []).in_events, ¬ is_gain_event e := by
    simp [delivered, demo_block, demo_events]
  rw [apply_param_events_of_no_gain _ _ hno] at h
  simp only [run, List.foldl_nil]
  rw [h, applied_gain_spec_closed]
  simp [GainPlugin.new, db_to_gain]

/-- C7 as amended: the instance keeps no activation state and `process` is not guarded
by the lifecycle.  After any sequence of calls, activated or not, a `process` call
returns continue; it writes no output sample and leaves the smoothed gain unchanged
when the process record is null or the block is degenerate or holds zero frames. -/
theorem process_continue_in_every_state (host : Bool) (calls : List (Call ℝ))
    (p : Option (clap_process ℝ)) :
    (process ⟨Real.exp, Real.rpow⟩ (run ⟨Real.exp, Real.rpow⟩ (GainPlugin.new host) calls)
      p).status = CLAP_PROCESS_CONTINUE ∧
    ((p = none ∨ ∃ q, p = some q ∧ (degenerate_block q ∨ q.frames_count = 0)) →
      (∀ port ch i,
        sample_of (process ⟨Real.exp, Real.rpow⟩
          (run ⟨Real.exp, Real.rpow⟩ (GainPlugin.new host) calls) p).process port ch i
          = sample_of p port ch i) ∧
      (process ⟨Real.exp, Real.rpow⟩ (run ⟨Real.exp, Real.rpow⟩ (GainPlugin.new host) calls)
        p).plugin.current_gain_
        = (run ⟨Real.exp, Real.rpow⟩ (GainPlugin.new host) calls).current_gain_) := by
  refine ⟨process_status _ _ _, ?_⟩
  generalize run ⟨Real.exp, Real.rpow⟩ (GainPlugin.new host) calls = s
  rintro (hp | ⟨q, hp, hq⟩)
  · subst hp
    exact ⟨fun _ _ _ => rfl, rfl⟩
  · subst hp
    rcases block_cases q with h | ⟨h1, h2, h⟩ | ⟨h1, h2, ⟨inp, hi⟩, ⟨out, ho⟩, hc⟩
    · rw [process_of_no_port _ s q h]
      exact ⟨fun _ _ _ => rfl, rfl⟩
    · rw [process_of_no_buffer _ s q h1 h2 h]
      exact ⟨fun _ _ _ => rfl, (apply_param_events_frame s q.in_events).1⟩
    · have hf : q.frames_count = 0 := by
        rcases hq with hd | hf
        · exfalso
          rcases hd with hd | hd | hd | hd | hd
          · exact h1 hd
          · exact h2 hd
          · rw [hi] at hd; cases hd
          · rw [ho] at hd; cases hd
          · omega
        · exact hf
      rw [process_of_valid _ s q inp out h1 h2 hi ho hc, hf]
      refine ⟨?_, (apply_param_events_frame s q.in_events).1⟩
      intro port ch i
      simp only [sample_of, process_frames, List.range_zero, List.foldl_nil]
      by_cases hport : port = 0
      · subst hport
        simp [ho]
      · simp [hport]

/-- C7 as amended, at a concrete call: a never-activated instance and a block of zero
frames. -/
theorem process_continue_in_every_state_witness :
    (process ⟨Real.exp, Real.rpow⟩ (run ⟨Real.exp, Real.rpow⟩ (GainPlugin.new true) [])
      (some (demo_block ℝ 0 []))).plugin.current_gain_
      = (run ⟨Real.exp, Real.rpow⟩ (GainPlugin.new true : GainPlugin ℝ) []).current_gain_ :=
  ((process_continue_in_every_state true [] (some (demo_block ℝ 0 []))).2
    (Or.inr ⟨_, rfl, Or.inr rfl⟩)).2

/-- C8 on the code: `activate` with the rejected rate 0.5 returns false and yet stores
the rate and resets the smoothed gain.  On an instance whose gain parameter was set to
-60 dB by `params.flush` (smoothed gain still 1, rate 48000) the failed call leaves the
rate 0.5 and the smoothed gain 0.001. -/
theorem activate_rejected_rate_is_stored :
    (params_flush (GainPlugin.new true : GainPlugin ℝ)
      (some (demo_events ℝ [some (demo_event ℝ 0 (-60))]))).sample_rate_ = 48000 ∧
    (params_flush (GainPlugin.new true : GainPlugin ℝ)
      (some (demo_events ℝ [some (demo_event ℝ 0 (-60))]))).current_gain_ = 1 ∧
    (activate ⟨Real.exp, Real.rpow⟩ (params_flush (GainPlugin.new true : GainPlugin ℝ)
      (some (demo_events ℝ [some (demo_event ℝ 0 (-60))]))) 0.5).1 = false ∧
    (activate ⟨Real.exp, Real.rpow⟩ (params_flush (GainPlugin.new true : GainPlugin ℝ)
      (some (demo_events ℝ [some (demo_event ℝ 0 (-60))]))) 0.5).2.sample_rate_ = 0.5 ∧
    (activate ⟨Real.exp, Real.rpow⟩ (params_flush (GainPlugin.new true : GainPlugin ℝ)
      (some (demo_events ℝ [some (demo_event ℝ 0 (-60))]))) 0.5).2.current_gain_ = 0.001 := by
  have hg : (params_flush (GainPlugin.new true : GainPlugin ℝ)
      (some (demo_events ℝ [some (demo_event ℝ 0 (-60))]))).gain_db_ = -60 := by
    unfold params_flush
    rw [apply_param_events_demo_single, clamp_of_mem _ (le_refl _) (by norm_num)]
  obtain ⟨h1, h2, _, _⟩ := apply_param_events_frame (GainPlugin.new true : GainPlugin ℝ)
    (some (demo_events ℝ [some (demo_event ℝ 0 (-60))]))
  refine ⟨h2, h1, ?_, rfl, ?_⟩
  · simp only [activate, decide_eq_false_iff_not, not_lt, gt_iff_lt]
    norm_num
  · simp only [activate, reset, db_to_gain, hg]
    exact rpow_neg_sixty_db

/-- C9: `activate` (and the vtable entry `clap_activate`, whatever the frame counts)
returns true exactly when `sample_rate > 1.0`; whenever it returns true the smoothed
gain afterwards is `10^(d/20)` for the stored gain parameter `d`, which the call does
not change, and the cached sample rate is `sample_rate`. -/
theorem activate_contract (s : GainPlugin ℝ) (sample_rate : ℝ) (mn mx : Nat) :
    clap_activate ⟨Real.exp, Real.rpow⟩ s sample_rate mn mx
      = activate ⟨Real.exp, Real.rpow⟩ s sample_rate ∧
    ((activate ⟨Real.exp, Real.rpow⟩ s sample_rate).1 = true ↔ 1 < sample_rate) ∧
    ((activate ⟨Real.exp, Real.rpow⟩ s sample_rate).1 = true →
      (activate ⟨Real.exp, Real.rpow⟩ s sample_rate).2.gain_db_ = s.gain_db_ ∧
      (activate ⟨Real.exp, Real.rpow⟩ s sample_rate).2.current_gain_
        = (10 : ℝ) ^ ((activate ⟨Real.exp, Real.rpow⟩ s sample_rate).2.gain_db_ / 20) ∧
      (activate ⟨Real.exp, Real.rpow⟩ s sample_rate).2.sample_rate_ = sample_rate) := by
  refine ⟨rfl, ?_, fun _ => ⟨rfl, rfl, rfl⟩⟩
  simp only [activate, decide_eq_true_eq, gt_iff_lt]

/-- C9 at a concrete call: a fresh instance activated at 44100 Hz. -/
theorem activate_contract_witness :
    (activate ⟨Real.exp, Real.rpow⟩ (GainPlugin.new true : GainPlugin ℝ) 44100).2.sample_rate_
      = 44100 :=
  ((activate_contract (GainPlugin.new true) 44100 32 1024).2.2
    ((activate_contract (GainPlugin.new true) 44100 32 1024).2.1.mpr (by norm_num))).2.2

/-- C10 on the code: a block with one input and one output port whose input port 0 has
a null 32-bit buffer is degenerate, and yet, carrying one gain event of -6 dB, it moves
the stored gain parameter of a fresh instance from 0 to -6: the null-buffer guard of
`process` returns after the event merge.  The same block with an input port count of
zero leaves the instance unchanged: the port-count guard returns before the merge. -/
theorem process_null_buffer_block_merges_events :
    degenerate_block (demo_null_block ℝ 1 [some (demo_event ℝ 0 (-6))]) ∧
    (GainPlugin.new true : GainPlugin ℝ).gain_db_ = 0 ∧
    (process ⟨Real.exp, Real.rpow⟩ (GainPlugin.new true : GainPlugin ℝ)
      (some (demo_null_block ℝ 1 [some (demo_event ℝ 0 (-6))]))).plugin.gain_db_ = -6 ∧
    (process ⟨Real.exp, Real.rpow⟩ (GainPlugin.new true : GainPlugin ℝ)
      (some { demo_null_block ℝ 1 [some (demo_event ℝ 0 (-6))] with
        audio_inputs_count := 0 })).plugin = GainPlugin.new true := by
  refine ⟨Or.inr (Or.inr (Or.inl rfl)), rfl, ?_, ?_⟩
  · rw [process_of_no_buffer _ _ _ (by simp [demo_null_block, demo_block])
      (by simp [demo_null_block, demo_block]) (Or.inl rfl)]
    simp only [demo_null_block, demo_block]
    rw [apply_param_events_demo_single, clamp_of_mem _ (by norm_num) (by norm_num)]
  · rw [process_of_no_port _ _ _ (Or.inl rfl)]

/-! ## Frame conditions, ignored events, reset -/

section FrameLemmas

variable {α : Type} [LinearOrderedField α]

/-- A degenerate block comes back from `process` as it went in. -/
theorem process_record_of_degenerate (m : Libm α) (s : GainPlugin α) (q : clap_process α)
    (hd : degenerate_block q) : (process m s (some q)).process = some q := by
  by_cases hports : q.audio_inputs_count = 0 ∨ q.audio_outputs_count = 0
  · rw [process_of_no_port m s q hports]
  · have h1 : q.audio_inputs_count ≠ 0 := fun h => hports (Or.inl h)
    have h2 : q.audio_outputs_count ≠ 0 := fun h => hports (Or.inr h)
    have hb : (q.audio_inputs 0).data32 = none ∨ (q.audio_outputs 0).data32 = none ∨
        min (q.audio_inputs 0).channel_count (q.audio_outputs 0).channel_count = 0 := by
      rcases hd with h | h | h
      · exact absurd h h1
      · exact absurd h h2
      · exact h
    rw [process_of_no_buffer m s q h1 h2 hb]

/-- The output memory of port 0 after `process` on a block that passes every guard:
inside the frame the product, outside the frame the old sample. -/
theorem process_output_of_valid (m : Libm α) (s : GainPlugin α) (p : clap_process α)
    (inp out : Nat → Nat → α)
    (hin : p.audio_inputs_count ≠ 0) (hout : p.audio_outputs_count ≠ 0)
    (hi : (p.audio_inputs 0).data32 = some inp) (ho : (p.audio_outputs 0).data32 = some out)
    (hch : 1 ≤ min (p.audio_inputs 0).channel_count (p.audio_outputs 0).channel_count)
    (ch i : Nat) :
    sample_of (process m s (some p)).process 0 ch i
      = some (if ch < min (p.audio_inputs 0).channel_count (p.audio_outputs 0).channel_count
            ∧ i < p.frames_count
          then inp ch i * applied_gain_spec
            (db_to_gain m (apply_param_events s p.in_events).gain_db_)
            (smoothing_coefficient m s.sample_rate_) s.current_gain_ (i + 1)
          else out ch i) := by
  obtain ⟨hg, hsr, _, _⟩ := apply_param_events_frame s p.in_events
  rw [process_of_valid _ s p inp out hin hout hi ho hch]
  simp only [sample_of, if_true, Option.map_some', hg, hsr]
  rw [process_frames_out]

theorem foldl_apply_param_event_filter (l : List (Option (clap_event_param_value α)))
    (s : GainPlugin α) :
    l.foldl apply_param_event s
      = (l.filter (fun e => decide (is_gain_event e))).foldl apply_param_event s := by
  induction l generalizing s with
  | nil => rfl
  | cons e l ih =>
    by_cases hg : is_gain_event e
    · rw [List.filter_cons_of_pos (by simpa using hg), List.foldl_cons, List.foldl_cons, ih]
    · rw [List.filter_cons_of_neg (by simpa using hg), List.foldl_cons,
        apply_param_event_of_not_gain s e hg, ih]

omit [LinearOrderedField α] in
theorem is_gain_event_demo_event (v : α) : is_gain_event (some (demo_event α 0 v)) :=
  ⟨_, rfl, rfl, by simp [demo_event], rfl⟩

omit [LinearOrderedField α] in
theorem not_is_gain_event_demo_event (param_id : Int) (v : α) (h : param_id ≠ 0) :
    ¬ is_gain_event (some (demo_event α param_id v)) := by
  rintro ⟨ev, he, _, _, hid⟩
  cases he
  exact h hid

omit [LinearOrderedField α] in
theorem not_is_gain_event_none : ¬ is_gain_event (none : Option (clap_event_param_value α)) := by
  rintro ⟨ev, he, _⟩
  cases he

end FrameLemmas

/-- C11: a `process` call given a null process record, zero input ports, zero output
ports, a null 32-bit buffer on port 0 of either side, or zero active channels returns
continue and hands the record back as it was: every sample of every output buffer is
what it was before the call. -/
theorem process_degenerate_writes_nothing (s : GainPlugin ℝ) (p : Option (clap_process ℝ))
    (h : p = none ∨ ∃ q, p = some q ∧ degenerate_block q) :
    (process ⟨Real.exp, Real.rpow⟩ s p).status = CLAP_PROCESS_CONTINUE ∧
    (process ⟨Real.exp, Real.rpow⟩ s p).process = p ∧
    (∀ port ch i, sample_of (process ⟨Real.exp, Real.rpow⟩ s p).process port ch i
      = sample_of p port ch i) := by
  have hrec : (process ⟨Real.exp, Real.rpow⟩ s p).process = p := by
    rcases h with h | ⟨q, h, hd⟩
    · subst h
      rfl
    · subst h
      exact process_record_of_degenerate _ s q hd
  refine ⟨process_status _ _ _, hrec, ?_⟩
  intro port ch i
  rw [hrec]

/-- C11 at a concrete call: a block whose input port 0 has a null 32-bit buffer keeps
the output sample of frame 0 on channel 0 at 0. -/
theorem process_degenerate_writes_nothing_witness :
    sample_of (process ⟨Real.exp, Real.rpow⟩ (GainPlugin.new true : GainPlugin ℝ)
      (some (demo_null_block ℝ 4 []))).process 0 0 0 = some 0 :=
  (process_degenerate_writes_nothing (GainPlugin.new true) (some (demo_null_block ℝ 4 []))
    (Or.inr ⟨_, rfl, Or.inr (Or.inr (Or.inl rfl))⟩)).2.2 0 0 0

/-- C12: on a block that passes every guard, with `channels` the minimum of the channel
counts of port 0, `process` writes only the output samples `out[ch][i]` with
`ch < channels` and `i < frames_count`: every sample of port 0 with `ch ≥ channels` or
`i ≥ frames_count` is unchanged, every output port other than port 0 is unchanged, and
the input buffers are unchanged. -/
theorem process_write_frame (s : GainPlugin ℝ) (p : clap_process ℝ) (hv : valid_block p) :
    (∀ ch i,
      min (p.audio_inputs 0).channel_count (p.audio_outputs 0).channel_count ≤ ch
        ∨ p.frames_count ≤ i →
      sample_of (process ⟨Real.exp, Real.rpow⟩ s (some p)).process 0 ch i
        = sample_of (some p) 0 ch i) ∧
    (∃ q, (process ⟨Real.exp, Real.rpow⟩ s (some p)).process = some q ∧
      (∀ port, port ≠ 0 → q.audio_outputs port = p.audio_outputs port) ∧
      q.audio_inputs = p.audio_inputs ∧
      q.audio_inputs_count = p.audio_inputs_count ∧
      q.audio_outputs_count = p.audio_outputs_count ∧
      q.frames_count = p.frames_count ∧
      (q.audio_outputs 0).channel_count = (p.audio_outputs 0).channel_count) := by
  obtain ⟨h1, h2, hi, ho, hc⟩ := hv
  obtain ⟨inp, hi⟩ := Option.ne_none_iff_exists'.mp hi
  obtain ⟨out, ho⟩ := Option.ne_none_iff_exists'.mp ho
  constructor
  · intro ch i hout
    rw [process_output_of_valid _ s p inp out h1 h2 hi ho hc ch i]
    have hneg : ¬ (ch < min (p.audio_inputs 0).channel_count (p.audio_outputs 0).channel_count
        ∧ i < p.frames_count) := by
      rintro ⟨ha, hb⟩
      rcases hout with h | h
      · exact absurd ha (not_lt.mpr h)
      · exact absurd hb (not_lt.mpr h)
    rw [if_neg hneg]
    simp only [sample_of, ho, Option.map_some']
  · rw [process_of_valid _ s p inp out h1 h2 hi ho hc]
    refine ⟨_, rfl, ?_, rfl, rfl, rfl, rfl, rfl⟩
    intro port hport
    simp only [if_neg hport]

/-- C12 at a concrete call: a block of 2 frames on stereo buffers leaves the sample of
frame 5 on channel 0 and the sample of frame 0 on channel 3 at 0. -/
theorem process_write_frame_witness :
    sample_of (process ⟨Real.exp, Real.rpow⟩ (GainPlugin.new true : GainPlugin ℝ)
        (some (demo_block ℝ 2 []))).process 0 0 5 = sample_of (some (demo_block ℝ 2 [])) 0 0 5 ∧
    sample_of (process ⟨Real.exp, Real.rpow⟩ (GainPlugin.new true : GainPlugin ℝ)
        (some (demo_block ℝ 2 []))).process 0 3 0 = sample_of (some (demo_block ℝ 2 [])) 0 3 0 :=
  ⟨(process_write_frame (GainPlugin.new true) (demo_block ℝ 2 [])
      (valid_block_demo_block _ _)).1 0 5 (Or.inr (by simp [demo_block])),
   (process_write_frame (GainPlugin.new true) (demo_block ℝ 2 [])
      (valid_block_demo_block _ _)).1 3 0 (Or.inl (by simp [demo_block, demo_buffer]))⟩

/-- C13: an event that is null, has another type than 5, declares a size below the
parameter-value record, or names another parameter than 0 is exactly an event that is
not a gain event.  On a list holding only such events `apply_param_events`, and hence
`params.flush`, returns the instance unchanged; and two lists with the same gain events
in the same order, whatever such events are interleaved, give the same merge. -/
theorem unrecognised_events_ignored (s : GainPlugin ℝ) :
    (∀ e : Option (clap_event_param_value ℝ),
      ¬ is_gain_event e ↔
        (e = none ∨ ∃ ev, e = some ev ∧
          (ev.header.type ≠ CLAP_EVENT_PARAM_VALUE ∨
           ev.header.size < sizeof_clap_event_param_value ∨
           ev.param_id ≠ (kGainParamId : Int)))) ∧
    (∀ events : Option (clap_input_events ℝ),
      (∀ e ∈ delivered events, ¬ is_gain_event e) →
      apply_param_events s events = s ∧ params_flush s events = s) ∧
    (∀ events1 events2 : Option (clap_input_events ℝ),
      (delivered events1).filter (fun e => decide (is_gain_event e))
        = (delivered events2).filter (fun e => decide (is_gain_event e)) →
      apply_param_events s events1 = apply_param_events s events2 ∧
      params_flush s events1 = params_flush s events2) := by
  refine ⟨?_, ?_, ?_⟩
  · intro e
    simp only [CLAP_EVENT_PARAM_VALUE, sizeof_clap_event_param_value, kGainParamId]
    constructor
    · intro h
      cases e with
      | none => exact Or.inl rfl
      | some ev =>
        right
        refine ⟨ev, rfl, ?_⟩
        by_contra hcon
        apply h
        refine ⟨ev, rfl, ?_, ?_, ?_⟩
        · by_contra h5
          exact hcon (Or.inl h5)
        · by_contra h40
          exact hcon (Or.inr (Or.inl (by omega)))
        · by_contra hid
          exact hcon (Or.inr (Or.inr (by simpa using hid)))
    · rintro (h | ⟨ev, h, hcase⟩)
      · subst h
        rintro ⟨ev, he, _⟩
        cases he
      · subst h
        rintro ⟨ev2, he, h5, h40, hid⟩
        cases he
        rcases hcase with hc | hc | hc
        · exact hc h5
        · omega
        · exact hc (by simpa using hid)
  · intro events hno
    have h := apply_param_events_of_no_gain s events hno
    exact ⟨h, h⟩
  · intro events1 events2 hsame
    have h : apply_param_events s events1 = apply_param_events s events2 := by
      rw [apply_param_events_eq_foldl, apply_param_events_eq_foldl,
        foldl_apply_param_event_filter (delivered events1),
        foldl_apply_param_event_filter (delivered events2), hsame]
    exact ⟨h, h⟩

/-- C13 at concrete lists: a gain event of 3 dB between a null event and an event for
parameter 7 merges like the gain event alone. -/
theorem unrecognised_events_ignored_witness :
    apply_param_events (GainPlugin.new true : GainPlugin ℝ)
        (some (demo_events ℝ [none, some (demo_event ℝ 0 3), some (demo_event ℝ 7 5)]))
      = apply_param_events (GainPlugin.new true : GainPlugin ℝ)
        (some (demo_events ℝ [some (demo_event ℝ 0 3)])) :=
  ((unrecognised_events_ignored (GainPlugin.new true)).2.2
    (some (demo_events ℝ [none, some (demo_event ℝ 0 3), some (demo_event ℝ 7 5)]))
    (some (demo_events ℝ [some (demo_event ℝ 0 3)]))
    (by
      simp [delivered, demo_events, List.range_succ, List.filter_cons,
        is_gain_event_demo_event, not_is_gain_event_demo_event, not_is_gain_event_none])).1

/-- C14: after `reset` the smoothed gain is `10^(d/20)` for the stored gain parameter
`d`, whatever the smoothed gain was before; a second `reset` changes nothing more; and
`reset` changes neither the gain parameter nor the cached sample rate. -/
theorem reset_idempotent (s : GainPlugin ℝ) :
    (reset ⟨Real.exp, Real.rpow⟩ s).current_gain_ = (10 : ℝ) ^ (s.gain_db_ / 20) ∧
    (∀ g : ℝ, reset ⟨Real.exp, Real.rpow⟩ { s with current_gain_ := g }
      = reset ⟨Real.exp, Real.rpow⟩ s) ∧
    reset ⟨Real.exp, Real.rpow⟩ (reset ⟨Real.exp, Real.rpow⟩ s)
      = reset ⟨Real.exp, Real.rpow⟩ s ∧
    (reset ⟨Real.exp, Real.rpow⟩ s).gain_db_ = s.gain_db_ ∧
    (reset ⟨Real.exp, Real.rpow⟩ s).sample_rate_ = s.sample_rate_ :=
  ⟨rfl, fun _ => rfl, rfl, rfl, rfl⟩

/-! ## Conversion and capability tables -/

/-- C15: `db_to_gain(db) = 10^(db/20)` is strictly monotonic, `db_to_gain(0) = 1`,
`db_to_gain(-60) = 0.001`, and the parameter range `[-60, 12]` is mapped into
`[0.001, 10^0.6]`. -/
theorem db_to_gain_monotone :
    (∀ db : ℝ, db_to_gain ⟨Real.exp, Real.rpow⟩ db = (10 : ℝ) ^ (db / 20)) ∧
    (∀ db1 db2 : ℝ, db1 < db2 →
      db_to_gain ⟨Real.exp, Real.rpow⟩ db1 < db_to_gain ⟨Real.exp, Real.rpow⟩ db2) ∧
    db_to_gain ⟨Real.exp, Real.rpow⟩ (0 : ℝ) = 1 ∧
    db_to_gain ⟨Real.exp, Real.rpow⟩ (-60 : ℝ) = 0.001 ∧
    (∀ db : ℝ, -60 ≤ db → db ≤ 12 →
      0.001 ≤ db_to_gain ⟨Real.exp, Real.rpow⟩ db ∧
      db_to_gain ⟨Real.exp, Real.rpow⟩ db ≤ (10 : ℝ) ^ (0.6 : ℝ)) := by
  have hdb : ∀ d : ℝ, db_to_gain ⟨Real.exp, Real.rpow⟩ d = (10 : ℝ) ^ (d / 20) := fun _ => rfl
  have hmono : ∀ a b : ℝ, a ≤ b → (10 : ℝ) ^ (a / 20) ≤ (10 : ℝ) ^ (b / 20) := by
    intro a b hab
    apply Real.rpow_le_rpow_of_exponent_le (by norm_num)
    linarith
  refine ⟨hdb, ?_, ?_, ?_, ?_⟩
  · intro db1 db2 hlt
    rw [hdb, hdb]
    apply Real.rpow_lt_rpow_of_exponent_lt (by norm_num)
    linarith
  · rw [hdb]
    exact rpow_zero_db
  · rw [hdb]
    exact rpow_neg_sixty_db
  · intro db h1 h2
    rw [hdb]
    constructor
    · rw [← rpow_neg_sixty_db]
      exact hmono _ _ h1
    · have h06 : (0.6 : ℝ) = 12 / 20 := by norm_num
      rw [h06]
      exact hmono _ _ h2

/-- C15 at concrete values: -6 dB is below 6 dB in linear gain, and 6 dB lies in the
image of the range. -/
theorem db_to_gain_monotone_witness :
    db_to_gain ⟨Real.exp, Real.rpow⟩ (-6 : ℝ) < db_to_gain ⟨Real.exp, Real.rpow⟩ (6 : ℝ) ∧
    db_to_gain ⟨Real.exp, Real.rpow⟩ (6 : ℝ) ≤ (10 : ℝ) ^ (0.6 : ℝ) :=
  ⟨db_to_gain_monotone.2.1 (-6) 6 (by norm_num),
   (db_to_gain_monotone.2.2.2.2 6 (by norm_num) (by norm_num)).2⟩

/-- C16: `get_extension` answers by exact string match: the audio-ports table exactly
for `"clap.audio-ports"`, the params table exactly for `"clap.params"`, the GUI table
exactly for `"clap.gui"`, and null for a null identifier and for every other string,
such as a prefix, an extension or a case variant of the three.  The answer does not
depend on the instance state, in particular it is the same before and after
`activate`. -/
theorem get_extension_exact_match (s : GainPlugin ℝ) (id : Option String) :
    (get_extension s id = some ExtensionTable.audio_ports_ ↔ id = some "clap.audio-ports") ∧
    (get_extension s id = some ExtensionTable.params_ ↔ id = some "clap.params") ∧
    (get_extension s id = some ExtensionTable.gui_ ↔ id = some "clap.gui") ∧
    (get_extension s id = none ↔
      id ≠ some "clap.audio-ports" ∧ id ≠ some "clap.params" ∧ id ≠ some "clap.gui") ∧
    get_extension s none = none ∧
    get_extension s (some "clap.param") = none ∧
    get_extension s (some "clap.params2") = none ∧
    get_extension s (some "CLAP.GUI") = none ∧
    (∀ s2 : GainPlugin ℝ, get_extension s2 id = get_extension s id) ∧
    (∀ sample_rate : ℝ,
      get_extension (activate ⟨Real.exp, Real.rpow⟩ s sample_rate).2 id = get_extension s id) := by
  have hother : ∀ t : String, t ≠ "clap.audio-ports" → t ≠ "clap.params" → t ≠ "clap.gui" →
      get_extension s (some t) = none := by
    intro t h1 h2 h3
    simp only [get_extension, CLAP_EXT_AUDIO_PORTS, CLAP_EXT_PARAMS, CLAP_EXT_GUI, if_neg h1,
      if_neg h2, if_neg h3]
  refine ⟨?_, ?_, ?_, ?_, rfl, hother _ (by decide) (by decide) (by decide),
    hother _ (by decide) (by decide) (by decide), hother _ (by decide) (by decide) (by decide),
    fun _ => rfl, fun _ => rfl⟩
  all_goals
    cases id with
    | none => simp [get_extension]
    | some t =>
      simp only [get_extension, CLAP_EXT_AUDIO_PORTS, CLAP_EXT_PARAMS, CLAP_EXT_GUI]
      by_cases h1 : t = "clap.audio-ports"
      · subst h1
        simp
      · by_cases h2 : t = "clap.params"
        · subst h2
          simp
        · by_cases h3 : t = "clap.gui"
          · subst h3
            simp
          · simp [h1, h2, h3]

/-- C17 on the code: for the gain parameter with non-null text and output,
`params.text_to_value` returns true and writes `clamp(strtod(text), -60, 12)`.  For a
text that `std::strtod` reads as NaN, such as `"nan"`, both comparisons of `std::clamp`
are false and the value written is NaN, which is no number of `[-60, 12]`.  For every
other text the value written is a number of `[-60, 12]`: -60 for a text read as -100,
5.5 for a text read as 5.5.  For another parameter id, a null text or a null output
pointer the entry returns false and writes nothing; the instance is never modified. -/
theorem params_text_to_value_writes_nan (strtod : String → Double ℝ) (s : GainPlugin ℝ) :
    (strtod "nan" = Double.nan →
      params_text_to_value strtod s kGainParamId (some "nan") true
        = (true, some Double.nan, s)) ∧
    (∀ x : ℝ, Double.nan ≠ Double.finite x) ∧
    (∀ text : String, strtod text ≠ Double.nan →
      ∃ x : ℝ, params_text_to_value strtod s kGainParamId (some text) true
          = (true, some (Double.finite x), s) ∧ -60 ≤ x ∧ x ≤ 12) ∧
    (strtod "-100.0" = Double.finite (-100) →
      (params_text_to_value strtod s 0 (some "-100.0") true).2.1 = some (Double.finite (-60))) ∧
    (strtod "5.5" = Double.finite 5.5 →
      (params_text_to_value strtod s 0 (some "5.5") true).2.1 = some (Double.finite 5.5)) ∧
    (∀ (param_id : Nat) (display : Option String) (value_ptr : Bool),
      param_id ≠ 0 ∨ display = none ∨ value_ptr = false →
      params_text_to_value strtod s param_id display value_ptr = (false, none, s)) ∧
    (∀ (param_id : Nat) (display : Option String) (value_ptr : Bool),
      (params_text_to_value strtod s param_id display value_ptr).2.2 = s) := by
  have hok : ∀ text : String, params_text_to_value strtod s kGainParamId (some text) true
      = (true, some (Double.clamp (strtod text) (Double.finite (-60)) (Double.finite 12)),
          s) := by
    intro text
    simp [params_text_to_value]
  have hfin : ∀ v : ℝ, Double.clamp (Double.finite v) (Double.finite (-60)) (Double.finite 12)
      = Double.finite (clamp v (-60) 12) := by
    intro v
    unfold Double.clamp clamp
    simp only [Double.lt, decide_eq_true_eq]
    split_ifs <;> rfl
  refine ⟨?_, ?_, ?_, ?_, ?_, ?_, ?_⟩
  · intro h
    rw [hok, h]
    rfl
  · intro x h
    cases h
  · intro text hne
    rw [hok]
    cases hv : strtod text with
    | finite v => exact ⟨clamp v (-60) 12, by rw [hfin], clamp_range v⟩
    | pos_inf => exact ⟨12, rfl, by norm_num, le_refl _⟩
    | neg_inf => exact ⟨-60, rfl, le_refl _, by norm_num⟩
    | nan => exact absurd hv hne
  · intro h
    have h0 := hok "-100.0"
    simp only [kGainParamId] at h0
    rw [h0, h, hfin, clamp_of_lt _ (by norm_num)]
  · intro h
    have h0 := hok "5.5"
    simp only [kGainParamId] at h0
    rw [h0, h, hfin, clamp_of_mem _ (by norm_num) (by norm_num)]
  · intro param_id display value_ptr hbad
    unfold params_text_to_value
    cases display with
    | none => rfl
    | some text =>
      simp only [kGainParamId]
      have hcond : (!value_ptr) = true ∨ param_id ≠ 0 := by
        rcases hbad with h | h | h
        · exact Or.inr h
        · cases h
        · exact Or.inl (by simp [h])
      rw [if_pos hcond]
  · intro param_id display value_ptr
    unfold params_text_to_value
    cases display with
    | none => rfl
    | some text =>
      simp only
      split_ifs <;> rfl

/-- C17 with a parser that reads `"nan"` as NaN and every other text as 5.5: the call on
`"nan"` reports success and writes NaN. -/
theorem params_text_to_value_writes_nan_witness :
    params_text_to_value (fun t => if t = "nan" then Double.nan else Double.finite (5.5 : ℝ))
      (GainPlugin.new true : GainPlugin ℝ) kGainParamId (some "nan") true
      = (true, some Double.nan, GainPlugin.new true) :=
  (params_text_to_value_writes_nan
    (fun t => if t = "nan" then Double.nan else Double.finite (5.5 : ℝ))
    (GainPlugin.new true)).1 (by simp)

/-- C18: `gui.is_api_supported` accepts exactly the floating-window requests for the
API `"x11"`: it returns false for every request with `is_floating = false`, for a null
API and for every other API string.  `gui.create` returns true exactly for the requests
that `is_api_supported` accepts, then with the context created; a rejected `create`
returns the instance, and with it the `created` state, unchanged. -/
theorem gui_api_support (s : GainPlugin ℝ) (api : Option String) (is_floating : Bool) :
    (gui_is_api_supported api is_floating = true ↔ is_floating = true ∧ api = some "x11") ∧
    gui_is_api_supported api false = false ∧
    gui_is_api_supported none is_floating = false ∧
    (∀ a : String, a ≠ "x11" → gui_is_api_supported (some a) is_floating = false) ∧
    ((gui_create s api is_floating).1 = true ↔ gui_is_api_supported api is_floating = true) ∧
    (gui_is_api_supported api is_floating = true →
      (gui_create s api is_floating).2.gui_context_.is_created = true) ∧
    (gui_is_api_supported api is_floating = false →
      gui_create s api is_floating = (false, s) ∧
      (gui_create s api is_floating).2.gui_context_.is_created = s.gui_context_.is_created) := by
  refine ⟨?_, ?_, ?_, ?_, ?_, ?_, ?_⟩
  · cases api with
    | none => simp [gui_is_api_supported]
    | some a => simp [gui_is_api_supported]
  · simp [gui_is_api_supported]
  · simp [gui_is_api_supported]
  · intro a ha
    simp [gui_is_api_supported, ha]
  · unfold gui_create
    cases h : gui_is_api_supported api is_floating <;> simp [GuiContext.create]
  · intro h
    simp [gui_create, h, GuiContext.create, GuiContext.is_created]
  · intro h
    have hc : gui_create s api is_floating = (false, s) := by
      simp [gui_create, h]
    exact ⟨hc, by rw [hc]⟩

/-- C18 at concrete requests: an embedded (non-floating) `"x11"` request is rejected and
leaves a fresh instance as it was. -/
theorem gui_api_support_witness :
    gui_create (GainPlugin.new true : GainPlugin ℝ) (some "x11") false
      = (false, GainPlugin.new true) :=
  ((gui_api_support (GainPlugin.new true) (some "x11") false).2.2.2.2.2.2
    (gui_api_support (GainPlugin.new true) (some "x11") false).2.1).1

/-! ## Block boundaries and `flush` -/

section SplitLemmas

variable {α : Type} [LinearOrderedField α]

/-- The instance `process` leaves on a block that passes every guard: the events are
merged and the smoothed gain has made `frames_count` steps. -/
theorem process_plugin_of_valid (m : Libm α) (s : GainPlugin α) (p : clap_process α)
    (hv : valid_block p) :
    (process m s (some p)).plugin
      = { (apply_param_events s p.in_events) with
          current_gain_ := applied_gain_spec
            (db_to_gain m (apply_param_events s p.in_events).gain_db_)
            (smoothing_coefficient m s.sample_rate_) s.current_gain_ p.frames_count } := by
  obtain ⟨h1, h2, hi, ho, hc⟩ := hv
  obtain ⟨inp, hi⟩ := Option.ne_none_iff_exists'.mp hi
  obtain ⟨out, ho⟩ := Option.ne_none_iff_exists'.mp ho
  obtain ⟨hg, hsr, _, _⟩ := apply_param_events_frame s p.in_events
  rw [process_of_valid m s p inp out h1 h2 hi ho hc]
  simp only [process_frames_gain, hg, hsr]

/-- The first result of `process_in_two` is the call on the first `n` frames. -/
theorem process_in_two_fst (m : Libm α) (s : GainPlugin α) (p : clap_process α) (n k : Nat)
    (events : Option (clap_input_events α)) :
    (process_in_two m s p n k events).1 = process m s (some { p with frames_count := n }) := by
  unfold process_in_two
  cases h : (process m s (some { p with frames_count := n })).process <;> simp [h]

/-- The second result of `process_in_two` on a block that passes every guard. -/
theorem process_in_two_snd (m : Libm α) (s : GainPlugin α) (p : clap_process α) (n k : Nat)
    (events : Option (clap_input_events α)) (inp out : Nat → Nat → α)
    (hin : p.audio_inputs_count ≠ 0) (hout : p.audio_outputs_count ≠ 0)
    (hi : (p.audio_inputs 0).data32 = some inp) (ho : (p.audio_outputs 0).data32 = some out)
    (hch : 1 ≤ min (p.audio_inputs 0).channel_count (p.audio_outputs 0).channel_count) :
    ∃ q : clap_process α,
      (process_in_two m s p n k events).2
        = process m (process m s (some { p with frames_count := n })).plugin
            (some (tail_block q n k events)) ∧
      q.audio_inputs_count = p.audio_inputs_count ∧
      q.audio_outputs_count = p.audio_outputs_count ∧
      q.audio_inputs = p.audio_inputs ∧
      (q.audio_outputs 0).channel_count = (p.audio_outputs 0).channel_count ∧
      (q.audio_outputs 0).data32 = some (fun ch i =>
        if ch < min (p.audio_inputs 0).channel_count (p.audio_outputs 0).channel_count ∧ i < n
        then inp ch i * applied_gain_spec
          (db_to_gain m (apply_param_events s p.in_events).gain_db_)
          (smoothing_coefficient m s.sample_rate_) s.current_gain_ (i + 1)
        else out ch i) := by
  obtain ⟨hg, hsr, _, _⟩ := apply_param_events_frame s p.in_events
  have hp := process_of_valid m s { p with frames_count := n } inp out hin hout hi ho hch
  unfold process_in_two
  simp only [hp]
  refine ⟨_, rfl, rfl, rfl, rfl, ?_, ?_⟩
  · simp only [if_true]
  · simp only [if_true, hg, hsr]
    congr 1
    funext ch i
    rw [process_frames_out]

end SplitLemmas

/-- C19: on a block that passes every guard, one `process` call on `n + k` frames with
event list `E` writes the same output samples and leaves the same instance, in
particular the same smoothed gain, as a call on the first `n` frames with `E` followed
by a call on the remaining `k` frames with no events. -/
theorem process_block_split (s : GainPlugin ℝ) (p : clap_process ℝ) (n k : Nat)
    (events : Option (clap_input_events ℝ))
    (hv : valid_block p) (hf : p.frames_count = n + k) (hno : delivered events = []) :
    (∀ ch i, i < n →
      sample_of (process ⟨Real.exp, Real.rpow⟩ s (some p)).process 0 ch i
        = sample_of (process_in_two ⟨Real.exp, Real.rpow⟩ s p n k events).1.process 0 ch i) ∧
    (∀ ch i, i < k →
      sample_of (process ⟨Real.exp, Real.rpow⟩ s (some p)).process 0 ch (n + i)
        = sample_of (process_in_two ⟨Real.exp, Real.rpow⟩ s p n k events).2.process 0 ch i) ∧
    (process ⟨Real.exp, Real.rpow⟩ s (some p)).plugin.current_gain_
      = (process_in_two ⟨Real.exp, Real.rpow⟩ s p n k events).2.plugin.current_gain_ ∧
    (process ⟨Real.exp, Real.rpow⟩ s (some p)).plugin
      = (process_in_two ⟨Real.exp, Real.rpow⟩ s p n k events).2.plugin := by
  have hv0 := hv
  obtain ⟨h1, h2, hi, ho, hc⟩ := hv
  obtain ⟨inp, hi⟩ := Option.ne_none_iff_exists'.mp hi
  obtain ⟨out, ho⟩ := Option.ne_none_iff_exists'.mp ho
  have hvn : valid_block { p with frames_count := n } := hv0
  have hsr := (apply_param_events_frame s p.in_events).2.1
  have hs1 := process_plugin_of_valid ⟨Real.exp, Real.rpow⟩ s { p with frames_count := n } hvn
  obtain ⟨q, hq, hqi, hqo, hqin, hqc, hqd⟩ :=
    process_in_two_snd ⟨Real.exp, Real.rpow⟩ s p n k events inp out h1 h2 hi ho hc
  have hno2 : ∀ e ∈ delivered (tail_block q n k events).in_events, ¬ is_gain_event e := by
    intro e he
    simp only [tail_block, hno, List.not_mem_nil] at he
  have hvt : valid_block (tail_block q n k events) := by
    refine ⟨?_, ?_, ?_, ?_, ?_⟩
    · simpa [tail_block, hqi] using h1
    · simpa [tail_block, hqo] using h2
    · simp [tail_block, hqin, hi]
    · simp [tail_block, hqd]
    · simpa [tail_block, hqin, hqc] using hc
  have hplug : (process ⟨Real.exp, Real.rpow⟩ s (some p)).plugin
      = (process_in_two ⟨Real.exp, Real.rpow⟩ s p n k events).2.plugin := by
    rw [hq, process_plugin_of_valid _ _ _ hvt, apply_param_events_of_no_gain _ _ hno2, hs1,
      process_plugin_of_valid _ s p hv0, hf]
    simp only [tail_block, hsr, applied_gain_spec_add]
  refine ⟨?_, ?_, by rw [hplug], hplug⟩
  · intro ch i hin
    rw [process_in_two_fst, process_output_of_valid _ s p inp out h1 h2 hi ho hc ch i,
      process_output_of_valid _ s { p with frames_count := n } inp out h1 h2 hi ho hc ch i, hf]
    have hlt : i < n + k := Nat.lt_add_right k hin
    simp only [hin, hlt]
  · intro ch i hik
    have hti : ((tail_block q n k events).audio_inputs 0).data32
        = some (fun c j => inp c (n + j)) := by
      simp [tail_block, hqin, hi]
    have hto : ((tail_block q n k events).audio_outputs 0).data32
        = some (fun c j =>
          if c < min (p.audio_inputs 0).channel_count (p.audio_outputs 0).channel_count ∧ n + j < n
          then inp c (n + j) * applied_gain_spec
            (db_to_gain ⟨Real.exp, Real.rpow⟩ (apply_param_events s p.in_events).gain_db_)
            (smoothing_coefficient ⟨Real.exp, Real.rpow⟩ s.sample_rate_) s.current_gain_
            (n + j + 1)
          else out c (n + j)) := by
      simp [tail_block, hqd]
    have htc : min ((tail_block q n k events).audio_inputs 0).channel_count
        ((tail_block q n k events).audio_outputs 0).channel_count
        = min (p.audio_inputs 0).channel_count (p.audio_outputs 0).channel_count := by
      simp [tail_block, hqin, hqc]
    rw [hq, process_output_of_valid _ _ (tail_block q n k events) _ _ hvt.1 hvt.2.1 hti hto
        hvt.2.2.2.2 ch i,
      process_output_of_valid _ s p inp out h1 h2 hi ho hc ch (n + i), htc,
      apply_param_events_of_no_gain _ _ hno2, hs1, hf]
    have hlt : n + i < n + k := Nat.add_lt_add_left hik n
    have hnlt : ¬ n + i < n := Nat.not_lt.mpr (Nat.le_add_right n i)
    simp only [tail_block, hik, hlt, hnlt, and_false, if_false, hsr, applied_gain_spec_add]
    rfl

/-- C19 at a concrete run: a fresh instance and a block of 5 frames carrying a gain
event of -20 dB, cut after 2 frames; the smoothed gain after the whole block is the one
after the two calls. -/
theorem process_block_split_witness :
    (process ⟨Real.exp, Real.rpow⟩ (GainPlugin.new true : GainPlugin ℝ)
      (some (demo_block ℝ 5 [some (demo_event ℝ 0 (-20))]))).plugin.current_gain_
      = (process_in_two ⟨Real.exp, Real.rpow⟩ (GainPlugin.new true : GainPlugin ℝ)
        (demo_block ℝ 5 [some (demo_event ℝ 0 (-20))]) 2 3 none).2.plugin.current_gain_ :=
  (process_block_split (GainPlugin.new true) (demo_block ℝ 5 [some (demo_event ℝ 0 (-20))])
    2 3 none (valid_block_demo_block _ _) rfl rfl).2.2.1

/-- C20: on a block `p` that passes every guard, `params.flush` with the event list of
`p` followed by `process` on `p` with an empty event list gives the same output samples
and the same instance, in particular the same stored gain parameter and smoothed gain,
as `process` on `p` carrying the list.  `flush` by itself changes at most the stored
gain parameter and its view-model mirror: smoothed gain, cached sample rate, host and GUI
context are untouched. -/
theorem flush_then_process (s : GainPlugin ℝ) (p : clap_process ℝ)
    (empty : Option (clap_input_events ℝ))
    (hv : valid_block p) (hempty : delivered empty = []) :
    (∀ port ch i,
      sample_of (process ⟨Real.exp, Real.rpow⟩ (params_flush s p.in_events)
          (some { p with in_events := empty })).process port ch i
        = sample_of (process ⟨Real.exp, Real.rpow⟩ s (some p)).process port ch i) ∧
    (process ⟨Real.exp, Real.rpow⟩ (params_flush s p.in_events)
        (some { p with in_events := empty })).plugin.gain_db_
      = (process ⟨Real.exp, Real.rpow⟩ s (some p)).plugin.gain_db_ ∧
    (process ⟨Real.exp, Real.rpow⟩ (params_flush s p.in_events)
        (some { p with in_events := empty })).plugin.current_gain_
      = (process ⟨Real.exp, Real.rpow⟩ s (some p)).plugin.current_gain_ ∧
    (process ⟨Real.exp, Real.rpow⟩ (params_flush s p.in_events)
        (some { p with in_events := empty })).plugin
      = (process ⟨Real.exp, Real.rpow⟩ s (some p)).plugin ∧
    (∀ events : Option (clap_input_events ℝ),
      (params_flush s events).current_gain_ = s.current_gain_ ∧
      (params_flush s events).sample_rate_ = s.sample_rate_ ∧
      (params_flush s events).host_ = s.host_ ∧
      (params_flush s events).gui_context_ = s.gui_context_) := by
  obtain ⟨h1, h2, hi, ho, hc⟩ := hv
  obtain ⟨inp, hi⟩ := Option.ne_none_iff_exists'.mp hi
  obtain ⟨out, ho⟩ := Option.ne_none_iff_exists'.mp ho
  obtain ⟨hg, hsr, _, _⟩ := apply_param_events_frame s p.in_events
  have hno : ∀ e ∈ delivered ({ p with in_events := empty } : clap_process ℝ).in_events,
      ¬ is_gain_event e := by
    intro e he
    simp only [hempty, List.not_mem_nil] at he
  have hmerge : apply_param_events (params_flush s p.in_events)
      ({ p with in_events := empty } : clap_process ℝ).in_events
      = apply_param_events s p.in_events :=
    apply_param_events_of_no_gain _ _ hno
  have hr := process_of_valid ⟨Real.exp, Real.rpow⟩ s p inp out h1 h2 hi ho hc
  have hr2 := process_of_valid ⟨Real.exp, Real.rpow⟩ (params_flush s p.in_events)
    { p with in_events := empty } inp out h1 h2 hi ho hc
  rw [hmerge] at hr2
  have hplug : (process ⟨Real.exp, Real.rpow⟩ (params_flush s p.in_events)
        (some { p with in_events := empty })).plugin
      = (process ⟨Real.exp, Real.rpow⟩ s (some p)).plugin := by
    rw [hr, hr2]
  refine ⟨?_, by rw [hplug], by rw [hplug], hplug, fun events => apply_param_events_frame s events⟩
  intro port ch i
  rw [hr, hr2]
  rfl

/-- C20 at a concrete run: a fresh instance and a block of 3 frames with a gain event of
-20 dB; the sample of frame 2 on channel 0 is the same on both paths. -/
theorem flush_then_process_witness :
    sample_of (process ⟨Real.exp, Real.rpow⟩
        (params_flush (GainPlugin.new true : GainPlugin ℝ)
          (demo_block ℝ 3 [some (demo_event ℝ 0 (-20))]).in_events)
        (some { demo_block ℝ 3 [some (demo_event ℝ 0 (-20))] with in_events := none })).process
        0 0 2
      = sample_of (process ⟨Real.exp, Real.rpow⟩ (GainPlugin.new true : GainPlugin ℝ)
        (some (demo_block ℝ 3 [some (demo_event ℝ 0 (-20))]))).process 0 0 2 :=
  (flush_then_process (GainPlugin.new true) (demo_block ℝ 3 [some (demo_event ℝ 0 (-20))])
    none (valid_block_demo_block _ _) rfl).1 0 0 2

/-! ## The smoothing coefficient -/

section RateLemmas

variable {α : Type} [LinearOrderedField α]

end RateLemmas

end GainPluginModel
